import Mathlib

/-!
Verification of gosberbot: dispatcher and speech/chat clients

A shallow embedding of `internal/service/service.go`,
`internal/provider/salutespeech/client.go` and
`internal/provider/gigachat/client.go`.

* Go `error` values are represented by their message (`Error := String`).
* A Go call either returns or panics (`Go`).
* The dispatcher's collaborators (HTTP download of the source file, the
  speech client, the chat client) are oracles that may answer differently
  depending on the history of calls made so far.
* The effects of a handler are recorded as a chronological list of `Call`s.
  `fmt.Printf` logging is not recorded.
-/

namespace Gosberbot

/-- Go `error` values, represented by their message. -/
abbrev Error := String

/-- Outcome of a Go call: a normal return or a runtime panic. -/
inductive Go (α : Type) where
  | ret (a : α)
  | panic (msg : String)
deriving DecidableEq, Repr

/-- Opaque handle of the originating user (`any` in the source). -/
abbrev User := Nat

/-- Modelled from the spec: `domain.Message`, whose declaration is not among
the sources; an inbound event with a kind (`Type` in the source), a payload
(text or resource locator) and the originating user. -/
structure Message where
  Typ : String
  Payload : String
  User : User
deriving DecidableEq, Repr

/-- Observable calls made by the dispatcher, in the order they happen. -/
inductive Call where
  | downloadFile (urlstr filename : String)
  | Send (user : User) (text : String)
  | UploadFile (filename : String)
  | RecognizeFile (reqFileId : String)
  | GetStatus (taskId : String)
  | Sleep (seconds : Nat)
  | DownloadFile (reqFileId : String)
  | GetCompletions (text : String)
deriving DecidableEq, Repr

/-- The collaborators of `Service`.  Every answer may depend on the calls made
so far.  `getFilename` stands for `url.Parse`/`filepath.Base`. -/
structure World where
  getFilename : String → String
  downloadFile : List Call → String → String → Option Error
  UploadFile : List Call → String → Go (String × Option Error)
  RecognizeFile : List Call → String → Go (String × Option Error)
  GetStatus : List Call → String → Go (String × Option Error)
  DownloadFile : List Call → String → Go (String × Option Error)
  GetCompletions : List Call → String → Go (String × Option Error)

/-- Result of running a handler: the calls made so far and, if the handler
did not return normally, the panic message. -/
structure Exec where
  trace : List Call
  panicked : Option String
deriving DecidableEq, Repr

/-- How the polling loop of `onVoice` is left. -/
inductive Poll where
  | done (fileReqId : String) (trace : List Call)
  | abort (trace : List Call)
  | panic (msg : String) (trace : List Call)
deriving DecidableEq, Repr

/-- The loop `for i := 0; i < 10; i++ { ... }` of `onVoice`, by the number of
iterations still to run (`10 - i`); `fileReqId` is the current value of the
variable of that name. -/
def pollLoop (w : World) (taskId : String) : Nat → String → List Call → Poll
  | 0, fileReqId, tr => .done fileReqId tr
  | n + 1, _, tr =>
    match w.GetStatus tr taskId with
    | .panic m => .panic m (tr ++ [.GetStatus taskId])
    | .ret (_, some _) => .abort (tr ++ [.GetStatus taskId])
    | .ret (fileReqId, none) =>
      if fileReqId ≠ "" then
        .done fileReqId (tr ++ [.GetStatus taskId])
      else
        pollLoop w taskId n fileReqId (tr ++ [.GetStatus taskId, .Sleep 3])

/-- Embedding of `Service.onText`. -/
def onText (w : World) (msg : Message) (tr : List Call) : Exec :=
  let tr1 := tr ++ [.GetCompletions msg.Payload]
  match w.GetCompletions tr msg.Payload with
  | .panic m => ⟨tr1, some m⟩
  | .ret (_, some _) => ⟨tr1, none⟩
  | .ret (text, none) => ⟨tr1 ++ [.Send msg.User text], none⟩

/-- Embedding of `Service.onVideo`. -/
def onVideo (msg : Message) (tr : List Call) : Exec :=
  ⟨tr ++ [.Send msg.User "not implemented yet"], none⟩

/-- Embedding of `Service.onAudio`. -/
def onAudio (msg : Message) (tr : List Call) : Exec :=
  ⟨tr ++ [.Send msg.User "not implemented yet"], none⟩

/-- Embedding of `Service.onCommand` (it only logs). -/
def onCommand (_msg : Message) (tr : List Call) : Exec :=
  ⟨tr, none⟩

/-- Embedding of `Service.onVoice`. -/
def onVoice (w : World) (msg : Message) (tr : List Call) : Exec :=
  let fileUrl := msg.Payload
  let fileName := w.getFilename fileUrl
  match w.downloadFile tr fileUrl fileName with
  | some _ => ⟨tr ++ [.downloadFile fileUrl fileName], none⟩
  | none =>
    let tr1 := tr ++ [.downloadFile fileUrl fileName, .Send msg.User ("Download " ++ fileName)]
    match w.UploadFile tr1 fileName with
    | .panic m => ⟨tr1 ++ [.UploadFile fileName], some m⟩
    | .ret (_, some _) => ⟨tr1 ++ [.UploadFile fileName], none⟩
    | .ret (fileReqId, none) =>
      let tr2 := tr1 ++ [.UploadFile fileName, .Send msg.User "Start recognize..."]
      match w.RecognizeFile tr2 fileReqId with
      | .panic m => ⟨tr2 ++ [.RecognizeFile fileReqId], some m⟩
      | .ret (_, some _) => ⟨tr2 ++ [.RecognizeFile fileReqId], none⟩
      | .ret (taskId, none) =>
        match pollLoop w taskId 10 fileReqId (tr2 ++ [.RecognizeFile fileReqId]) with
        | .panic m tr3 => ⟨tr3, some m⟩
        | .abort tr3 => ⟨tr3, none⟩
        | .done fileReqId tr3 =>
          let tr4 := tr3 ++ [.Send msg.User "Get text..."]
          match w.DownloadFile tr4 fileReqId with
          | .panic m => ⟨tr4 ++ [.DownloadFile fileReqId], some m⟩
          | .ret (_, some _) => ⟨tr4 ++ [.DownloadFile fileReqId], none⟩
          | .ret (text, none) =>
            ⟨tr4 ++ [.DownloadFile fileReqId, .Send msg.User ("Text: " ++ text ++ "\n")], none⟩

/-- Embedding of `Service.processor`. -/
def processor (w : World) (msg : Message) (tr : List Call) : Exec :=
  if msg.Typ = "text" then onText w msg tr
  else if msg.Typ = "video" then onVideo msg tr
  else if msg.Typ = "voice" then onVoice w msg tr
  else if msg.Typ = "audio" then onAudio msg tr
  else if msg.Typ = "command" then onCommand msg tr
  else ⟨tr, none⟩

/-- Embedding of the loop of `Service.Start` over the events received from the
queue, in arrival order.  A panic in `processor` is not recovered anywhere, so
it ends the loop (and the process). -/
def Start (w : World) : List Message → List Call → Exec
  | [], tr => ⟨tr, none⟩
  | msg :: rest, tr =>
    match processor w msg tr with
    | ⟨tr1, none⟩ => Start w rest tr1
    | ⟨tr1, some m⟩ => ⟨tr1, some m⟩

/-- Number of `GetStatus` calls in a trace. -/
def statusCalls (tr : List Call) : Nat :=
  tr.countP (fun c => match c with | .GetStatus _ => true | _ => false)

/-- Arguments of the `DownloadFile` calls of a trace, in order. -/
def downloadArgs (tr : List Call) : List String :=
  tr.filterMap (fun c => match c with | .DownloadFile id => some id | _ => none)

/-- The `Send` calls of a trace, in order. -/
def sends (tr : List Call) : List (User × String) :=
  tr.filterMap (fun c => match c with | .Send u t => some (u, t) | _ => none)

/-- Number of speech-client calls in a trace. -/
def speechCalls (tr : List Call) : Nat :=
  tr.countP (fun c => match c with
    | .UploadFile _ => true
    | .RecognizeFile _ => true
    | .GetStatus _ => true
    | .DownloadFile _ => true
    | _ => false)

/-- The calls of `k` unsuccessful poll attempts. -/
def pendingPolls (taskId : String) : Nat → List Call
  | 0 => []
  | k + 1 => [.GetStatus taskId, .Sleep 3] ++ pendingPolls taskId k

/-! ## HTTP layer shared by the two provider clients -/

/-- Instants, in nanoseconds since the zero `time.Time`. -/
abbrev Time := Int

/-- Embedding of `time.Time.IsZero`. -/
def IsZero (t : Time) : Bool := decide (t = 0)

/-- Embedding of `t.After(u)`. -/
def After (t u : Time) : Bool := decide (u < t)

/-- Two's complement wrap-around of `int64` arithmetic. -/
def wrap64 (x : Int) : Int := (x + 2 ^ 63) % 2 ^ 64 - 2 ^ 63

/-- Nanoseconds in `time.Millisecond`. -/
def Millisecond : Int := 1000000

/-- Seconds between the zero `time.Time` and the unix epoch. -/
def unixToInternal : Int := 62135596800

/-- Embedding of `time.Unix(sec, 0)`. -/
def Unix (sec : Int) : Time := wrap64 (sec + unixToInternal) * 1000000000

/-- JSON values, as produced by `json.Marshal`; numbers keep their literal. -/
inductive Json where
  | bool (b : Bool)
  | num (lit : String)
  | str (s : String)
  | arr (xs : List Json)
  | obj (fields : List (String × Json))

/-- Body of an outgoing request. -/
inductive Body where
  | none
  | text (s : String)
  | stream (content : List Nat) (size : Int)
  | json (j : Json)

/-- An outgoing `fasthttp.Request`. -/
structure Request where
  uri : String
  method : String
  headers : List (String × String)
  body : Body

/-- What `DoTimeout` gives: a transport error, or a response with its status
code, its raw body, and the outcome of `json.Unmarshal` of that body into the
target type `β`. -/
inductive HttpResult (β : Type) where
  | fail (err : Error)
  | resp (code : Nat) (raw : List Nat) (json : Except Error β)

/-- A value together with the requests sent to obtain it. -/
structure Ran (α : Type) where
  out : α
  sent : List Request

/-- Value of a header of a request, if set. -/
def header (req : Request) (name : String) : Option String :=
  (req.headers.find? (fun h => h.1 == name)).map (fun h => h.2)

/-- Rendering of a byte slice by the verb `%v`. -/
def fmtBytes (raw : List Nat) : String :=
  "[" ++ " ".intercalate (raw.map toString) ++ "]"

/-- Constant `fasthttp.StatusOK`. -/
def StatusOK : Nat := 200

/-- A local file as seen by `UploadFile`: the outcome of `file.Stat` (the size)
and the content. -/
structure File where
  stat : Except Error Int
  content : List Nat

namespace salutespeech

def OAuthUrl : String := "https://ngw.devices.sberbank.ru:9443/api/v2/oauth"
def UploadUrl : String := "https://smartspeech.sber.ru/rest/v1/data:upload"
def RecognizeUrl : String := "https://smartspeech.sber.ru/rest/v1/speech:async_recognize"
def StatusUrl : String := "https://smartspeech.sber.ru/rest/v1/task:get"
def DownloadUrl : String := "https://smartspeech.sber.ru/rest/v1/data:download"

structure Token where
  AccessToken : String
  ExpiresAt : Int
deriving DecidableEq, Repr

/-- The fields of `Client` other than the HTTP handle. -/
structure Client where
  authKey : String
  token : String
  expire : Time
deriving DecidableEq, Repr

structure UploadResponse where
  Status : Int
  RequestFileId : String
deriving DecidableEq, Repr

structure RecognizeResponse where
  Status : Int
  TaskId : String
  CreatedAt : String
  UpdatedAt : String
  ResultStatus : String
deriving DecidableEq, Repr

/-- The field `Result` of `StatusResponse`. -/
structure StatusResult where
  TaskId : String
  CreatedAt : String
  UpdatedAt : String
  Status : String
  ResponseFileId : String
  Error : String
deriving DecidableEq, Repr

structure StatusResponse where
  Status : Int
  Result : StatusResult
deriving DecidableEq, Repr

/-- An element of the field `Results` of `DownloadResponse`. -/
structure DownloadResult where
  Text : String
  NormalizedText : String
  ResponseFileId : String
deriving DecidableEq, Repr

structure DownloadResponse where
  Status : Int
  Results : List DownloadResult
  Eou : Bool
  Channel : Int
  SpeakerId : Int
deriving DecidableEq, Repr

/-- Embedding of `NewClient`. -/
def NewClient (authKey : String) : Client := ⟨authKey, "", 0⟩

/-- The request built by `GetToken`; `rqUID` is the fresh `uuid.New()`. -/
def tokenRequest (c : Client) (rqUID : String) : Request :=
  { uri := OAuthUrl
    method := "POST"
    headers := [("Accept", "application/json"),
      ("Content-Type", "application/x-www-form-urlencoded"),
      ("Authorization", "Basic " ++ c.authKey),
      ("RqUID", rqUID)]
    body := .text "scope=SALUTE_SPEECH_PERS" }

/-- Embedding of `Client.GetToken`: `now` is the clock reading of the validity
check, `now2` the reading when the answer is stored. -/
def GetToken (c : Client) (now : Time) (rqUID : String)
    (http : Request → HttpResult Token) (now2 : Time) : Ran (Option Error × Client) :=
  if !IsZero c.expire && After c.expire now then
    ⟨(none, c), []⟩
  else
    let req := tokenRequest c rqUID
    match http req with
    | .fail err => ⟨(some ("timeout: " ++ err), c), [req]⟩
    | .resp code raw json =>
      if code ≠ StatusOK then
        ⟨(some ("wrong status code: " ++ toString code ++ " " ++ fmtBytes raw), c), [req]⟩
      else
        match json with
        | .error err =>
          ⟨(some ("failed to unmarshal response: " ++ err ++ " " ++ fmtBytes raw), c), [req]⟩
        | .ok token =>
          ⟨(none, { c with
              token := token.AccessToken
              expire := now2 + wrap64 (wrap64 (token.ExpiresAt - 60000) * Millisecond) }),
            [req]⟩

/-- The request built by `GetStatus`. -/
def statusRequest (c : Client) (taskId : String) : Request :=
  { uri := StatusUrl ++ "?id=" ++ taskId
    method := "GET"
    headers := [("Accept", "application/json"),
      ("Content-Type", "application/json"),
      ("Authorization", "Bearer " ++ c.token)]
    body := .none }

/-- What `GetStatus` does with the answer to its request. -/
def statusResult : HttpResult StatusResponse → Go (String × Option Error)
  | .fail err => .ret ("", some ("timeout, error: " ++ err))
  | .resp code raw json =>
    if code ≠ StatusOK then
      .ret ("", some ("wrong status code: " ++ toString code ++ "\n" ++ fmtBytes raw))
    else
      match json with
      | .error err => .ret ("", some ("failed to unmarshal response: " ++ err))
      | .ok res =>
        if res.Status ≠ 200 then
          .ret ("", some ("wrong status code: " ++ toString res.Status))
        else if res.Result.Status = "ERROR" then
          .ret ("ERROR", some ("error: " ++ res.Result.Error))
        else
          .ret (res.Result.ResponseFileId, none)

/-- Embedding of `Client.GetStatus`. -/
def GetStatus (c : Client) (taskId : String)
    (http : Request → HttpResult StatusResponse) : Ran (Go (String × Option Error)) :=
  let req := statusRequest c taskId
  ⟨statusResult (http req), [req]⟩

/-- The request built by `UploadFile` for an opened file of the given size. -/
def uploadRequest (c : Client) (content : List Nat) (size : Int) : Request :=
  { uri := UploadUrl
    method := "POST"
    headers := [("Accept", "application/json"),
      ("Content-Type", "binary/octet-stream"),
      ("Authorization", "Bearer " ++ c.token)]
    body := .stream content size }

/-- What `UploadFile` does with the answer to its request. -/
def uploadResult : HttpResult UploadResponse → Go (String × Option Error)
  | .fail err => .ret ("", some ("timeout, error: " ++ err))
  | .resp code _ json =>
    if code ≠ StatusOK then
      .ret ("", some ("wrong status code: " ++ toString code))
    else
      match json with
      | .error err => .ret ("", some ("failed to unmarshal response: " ++ err))
      | .ok res =>
        if res.Status ≠ 200 then
          .ret ("", some ("wrong status code: " ++ toString res.Status))
        else
          .ret (res.RequestFileId, none)

/-- Embedding of `Client.UploadFile`; `openFile` stands for `os.Open`. -/
def UploadFile (c : Client) (filename : String) (openFile : String → Except Error File)
    (http : Request → HttpResult UploadResponse) : Ran (Go (String × Option Error)) :=
  match openFile filename with
  | .error err => ⟨.ret ("", some ("failed to open file: " ++ err)), []⟩
  | .ok file =>
    match file.stat with
    | .error err => ⟨.ret ("", some ("failed to get file info: " ++ err)), []⟩
    | .ok size =>
      let req := uploadRequest c file.content size
      ⟨uploadResult (http req), [req]⟩

/-- The payload of `RecognizeFile`, as `json.Marshal` writes it (keys sorted). -/
def recognizePayload (reqFileId : String) : Json :=
  .obj [("options", .obj [
      ("audio_encoding", .str "OPUS"),
      ("channels_count", .num "1"),
      ("enable_profanity_filter", .bool false),
      ("hypotheses_count", .num "1"),
      ("language", .str "ru-RU"),
      ("max_speech_timeout", .str "20s"),
      ("no_speech_timeout", .str "7s"),
      ("sample_rate", .num "48000"),
      ("speaker_separation_options", .obj [
        ("count", .num "2"),
        ("enable", .bool false),
        ("enable_only_main_speaker", .bool false)])]),
    ("request_file_id", .str reqFileId)]

/-- The request built by `RecognizeFile`. -/
def recognizeRequest (c : Client) (reqFileId : String) : Request :=
  { uri := RecognizeUrl
    method := "POST"
    headers := [("Accept", "application/json"),
      ("Content-Type", "application/json"),
      ("Authorization", "Bearer " ++ c.token)]
    body := .json (recognizePayload reqFileId) }

/-- What `RecognizeFile` does with the answer to its request. -/
def recognizeResult : HttpResult RecognizeResponse → Go (String × Option Error)
  | .fail err => .ret ("", some ("timeout, error: " ++ err))
  | .resp code _ json =>
    if code ≠ StatusOK then
      .ret ("", some ("wrong status code: " ++ toString code))
    else
      match json with
      | .error err => .ret ("", some ("failed to unmarshal response: " ++ err))
      | .ok res =>
        if res.Status ≠ 200 then
          .ret ("", some ("wrong status code: " ++ toString res.Status))
        else
          .ret (res.TaskId, none)

/-- Embedding of `Client.RecognizeFile` (marshalling this payload cannot fail). -/
def RecognizeFile (c : Client) (reqFileId : String)
    (http : Request → HttpResult RecognizeResponse) : Ran (Go (String × Option Error)) :=
  let req := recognizeRequest c reqFileId
  ⟨recognizeResult (http req), [req]⟩

/-- The request built by `DownloadFile`. -/
def downloadRequest (c : Client) (reqFileId : String) : Request :=
  { uri := DownloadUrl ++ "?response_file_id=" ++ reqFileId
    method := "GET"
    headers := [("Accept", "application/json"),
      ("Content-Type", "application/json"),
      ("Authorization", "Bearer " ++ c.token)]
    body := .none }

/-- The loop `for _, r := range res { return r.Results[0].Text, nil }` of
`DownloadFile` followed by `return "", nil`; indexing an empty slice panics. -/
def firstText : List DownloadResponse → Go (String × Option Error)
  | [] => .ret ("", none)
  | r :: _ =>
    match r.Results with
    | [] => .panic "runtime error: index out of range [0] with length 0"
    | x :: _ => .ret (x.Text, none)

/-- What `DownloadFile` does with the answer to its request. -/
def downloadResult : HttpResult (List DownloadResponse) → Go (String × Option Error)
  | .fail err => .ret ("", some ("timeout, error: " ++ err))
  | .resp code _ json =>
    if code ≠ StatusOK then
      .ret ("", some ("wrong status code: " ++ toString code))
    else
      match json with
      | .error err => .ret ("", some ("failed to unmarshal response: " ++ err))
      | .ok res => firstText res

/-- Embedding of `Client.DownloadFile`. -/
def DownloadFile (c : Client) (reqFileId : String)
    (http : Request → HttpResult (List DownloadResponse)) : Ran (Go (String × Option Error)) :=
  let req := downloadRequest c reqFileId
  ⟨downloadResult (http req), [req]⟩

end salutespeech

namespace gigachat

def OAuthUrl : String := "https://ngw.devices.sberbank.ru:9443/api/v2/oauth"
def ModelsUrl : String := "https://gigachat.devices.sberbank.ru/api/v1/models"
def GetCompletionstUrl : String := "https://gigachat.devices.sberbank.ru/api/v1/chat/completions"

structure Token where
  AccessToken : String
  ExpiresAt : Int
deriving DecidableEq, Repr

/-- The fields of `Client` other than the HTTP handle. -/
structure Client where
  authKey : String
  token : String
  expire : Time
deriving DecidableEq, Repr

/-- An element of the field `Choices` of `CompletionResponse`. -/
structure Choice where
  Role : String
  Content : String
  Index : Int
  FinishReason : String
deriving DecidableEq, Repr

structure CompletionResponse where
  Choices : List Choice
  Created : Int
  Model : String
  PromtTokens : Int
  CompletionTokens : Int
  TotalTokens : Int
  Object : String
deriving DecidableEq, Repr

/-- Embedding of `NewClient`. -/
def NewClient (authKey : String) : Client := ⟨authKey, "", 0⟩

/-- The request built by `GetToken`; `rqUID` is the fresh `uuid.New()`. -/
def tokenRequest (c : Client) (rqUID : String) : Request :=
  { uri := OAuthUrl
    method := "POST"
    headers := [("Accept", "application/json"),
      ("Content-Type", "application/x-www-form-urlencoded"),
      ("Authorization", "Basic " ++ c.authKey),
      ("RqUID", rqUID)]
    body := .text "scope=GIGACHAT_API_PERS" }

/-- Embedding of `Client.GetToken`; `now` is the clock reading of the validity
check. -/
def GetToken (c : Client) (now : Time) (rqUID : String)
    (http : Request → HttpResult Token) : Ran (Option Error × Client) :=
  if !IsZero c.expire && After c.expire now then
    ⟨(none, c), []⟩
  else
    let req := tokenRequest c rqUID
    match http req with
    | .fail err => ⟨(some ("timeout: " ++ err), c), [req]⟩
    | .resp code raw json =>
      if code ≠ StatusOK then
        ⟨(some ("status code: " ++ toString code ++ " " ++ fmtBytes raw), c), [req]⟩
      else
        match json with
        | .error err =>
          ⟨(some ("failed to unmarshal response: " ++ err ++ " " ++ fmtBytes raw), c), [req]⟩
        | .ok token =>
          ⟨(none, { c with token := token.AccessToken, expire := Unix token.ExpiresAt }), [req]⟩

/-- The payload of `GetCompletions`, as `json.Marshal` writes it (keys sorted). -/
def completionsPayload (text : String) : Json :=
  .obj [("max_tokens", .num "512"),
    ("messages", .arr [.obj [("content", .str text), ("role", .str "user")]]),
    ("model", .str "GigaChat"),
    ("n", .num "1"),
    ("repetition_penalty", .num "1"),
    ("stream", .bool false),
    ("temperature", .num "1"),
    ("top_p", .num "0.1"),
    ("update_interval", .num "0")]

/-- The request built by `GetCompletions`. -/
def completionsRequest (c : Client) (text : String) : Request :=
  { uri := GetCompletionstUrl
    method := "POST"
    headers := [("Accept", "application/json"),
      ("Content-Type", "application/x-www-form-urlencoded"),
      ("Authorization", "Bearer " ++ c.token)]
    body := .json (completionsPayload text) }

/-- What `GetCompletions` does with the answer to its request. -/
def completionsResult : HttpResult CompletionResponse → Go (String × Option Error)
  | .fail err => .ret ("", some ("timeout, error: " ++ err))
  | .resp code _ json =>
    if code ≠ StatusOK then
      .ret ("", some ("status code: " ++ toString code))
    else
      match json with
      | .error err => .ret ("", some ("failed to unmarshal response: " ++ err))
      | .ok res =>
        match res.Choices with
        | [] => .ret ("", some "empty choices")
        | choice :: _ => .ret (choice.Content, none)

/-- Embedding of `Client.GetCompletions` (marshalling this payload cannot fail). -/
def GetCompletions (c : Client) (text : String)
    (http : Request → HttpResult CompletionResponse) : Ran (Go (String × Option Error)) :=
  let req := completionsRequest c text
  ⟨completionsResult (http req), [req]⟩

end gigachat

/-! ## The dispatcher wired to the two clients, as `main` does -/

/-- The environment of the running program: the network endpoints and the local
file system; answers may depend on the calls made so far. -/
structure Net where
  getFilename : String → String
  downloadFile : List Call → String → String → Option Error
  openFile : List Call → String → Except Error File
  upload : List Call → Request → HttpResult salutespeech.UploadResponse
  recognize : List Call → Request → HttpResult salutespeech.RecognizeResponse
  status : List Call → Request → HttpResult salutespeech.StatusResponse
  download : List Call → Request → HttpResult (List salutespeech.DownloadResponse)
  completions : List Call → Request → HttpResult gigachat.CompletionResponse

/-- The collaborators of a `Service` initialised (`Service.Init`) with the
clients `speech` and `chat`. -/
def clientWorld (net : Net) (speech : salutespeech.Client) (chat : gigachat.Client) : World :=
  { getFilename := net.getFilename
    downloadFile := net.downloadFile
    UploadFile := fun tr filename =>
      (salutespeech.UploadFile speech filename (net.openFile tr) (net.upload tr)).out
    RecognizeFile := fun tr reqFileId =>
      (salutespeech.RecognizeFile speech reqFileId (net.recognize tr)).out
    GetStatus := fun tr taskId =>
      (salutespeech.GetStatus speech taskId (net.status tr)).out
    DownloadFile := fun tr reqFileId =>
      (salutespeech.DownloadFile speech reqFileId (net.download tr)).out
    GetCompletions := fun tr text =>
      (gigachat.GetCompletions chat text (net.completions tr)).out }

/-! ## Test doubles -/

/-- A scripted world: the source file downloads as `voice.oga`, upload gives
`f1`, recognition gives `t1`, the `n`-th status call (counted from 0 over the
history) answers `status n`, the transcript download answers `download`, and
the chat answers `chat`. -/
def mockWorld (status : Nat → Go (String × Option Error))
    (download chat : Go (String × Option Error)) : World :=
  { getFilename := fun _ => "voice.oga"
    downloadFile := fun _ _ _ => none
    UploadFile := fun _ _ => .ret ("f1", none)
    RecognizeFile := fun _ _ => .ret ("t1", none)
    GetStatus := fun h _ => status (statusCalls h)
    DownloadFile := fun _ _ => download
    GetCompletions := fun _ _ => chat }

/-- A status endpoint that is pending `k` times and then answers `last`. -/
def pendingThen (k : Nat) (last : Go (String × Option Error)) (n : Nat) :
    Go (String × Option Error) :=
  if n < k then .ret ("", none) else last

/-- A voice event of user 7. -/
def voiceMsg : Message := ⟨"voice", "https://host/dir/voice.oga", 7⟩

/-- A text event of user 7. -/
def textMsg : Message := ⟨"text", "hello", 7⟩

/-- A scripted network: every stage answers HTTP 200 with a well-formed body
(upload `f1`, recognition `t1`, status done with result `r1`, chat "hi there");
the transcript download answers HTTP 200 with the decoded chunk list `chunks`. -/
def mockNet (chunks : List salutespeech.DownloadResponse) : Net :=
  { getFilename := fun _ => "voice.oga"
    downloadFile := fun _ _ _ => none
    openFile := fun _ _ => .ok ⟨.ok 3, [79, 103, 103]⟩
    upload := fun _ _ => .resp 200 [] (.ok ⟨200, "f1"⟩)
    recognize := fun _ _ => .resp 200 [] (.ok ⟨200, "t1", "", "", "NEW"⟩)
    status := fun _ _ => .resp 200 [] (.ok ⟨200, ⟨"t1", "", "", "DONE", "r1", ""⟩⟩)
    download := fun _ _ => .resp 200 [] (.ok chunks)
    completions := fun _ _ =>
      .resp 200 [] (.ok ⟨[⟨"assistant", "hi there", 0, "stop"⟩], 0, "GigaChat", 0, 0, 0, ""⟩) }

/-- A speech client whose stored token expired at instant 100. -/
def staleSpeech : salutespeech.Client := ⟨"key", "old", 100⟩

/-- A chat client whose stored token expired at instant 100. -/
def staleChat : gigachat.Client := ⟨"key", "old", 100⟩

/-- The calls of `onVoice` before the polling loop when the source file is
fetched and uploaded with id `fid`. -/
def voiceStart (w : World) (msg : Message) (fid : String) : List Call :=
  [.downloadFile msg.Payload (w.getFilename msg.Payload),
   .Send msg.User ("Download " ++ w.getFilename msg.Payload),
   .UploadFile (w.getFilename msg.Payload),
   .Send msg.User "Start recognize...",
   .RecognizeFile fid]

/-- The calls of `onVoice` after its `DownloadFile` call, when the poll loop was
left with id `r` at history `h`. -/
def voiceReply (w : World) (msg : Message) (r : String) (h : List Call) : List Call :=
  match w.DownloadFile (h ++ [.Send msg.User "Get text..."]) r with
  | .ret (text, none) => [.Send msg.User ("Text: " ++ text ++ "\n")]
  | _ => []

/-- The calls of `onVoice` after a poll loop left with id `r` at history `h`. -/
def voiceEnd (w : World) (msg : Message) (r : String) (h : List Call) : List Call :=
  [.Send msg.User "Get text...", .DownloadFile r] ++ voiceReply w msg r h

/-- Whether a call is an operation of the speech client. -/
def isSpeech : Call → Bool
  | .UploadFile _ => true
  | .RecognizeFile _ => true
  | .GetStatus _ => true
  | .DownloadFile _ => true
  | _ => false

/-- The speech-client calls of a trace, in order. -/
def speechOnly (tr : List Call) : List Call := tr.filter isSpeech

/-- The lifecycle of a transcription job, as a property of the calls `calls`
made by a handler started at history `tr0`: the speech-client calls are an
initial part of upload, recognize, between one and ten status calls, download;
a recognize call gets the id its upload returned without error, a status call
gets the task id the recognize call returned without error, and the download
call gets the value the last status call returned without error. -/
def Lifecycle (w : World) (msg : Message) (tr0 calls : List Call) : Prop :=
  (∃ fid tid r N, 1 ≤ N ∧ N ≤ 10 ∧
    speechOnly calls <+: .UploadFile (w.getFilename msg.Payload) :: .RecognizeFile fid ::
      (List.replicate N (.GetStatus tid) ++ [.DownloadFile r])) ∧
  (∀ p x q, calls = p ++ .RecognizeFile x :: q →
    ∃ p1 f p2, p = p1 ++ .UploadFile f :: p2 ∧ speechOnly p2 = [] ∧
      w.UploadFile (tr0 ++ p1) f = .ret (x, none)) ∧
  (∀ p t q, calls = p ++ .GetStatus t :: q →
    ∃ p1 x p2, p = p1 ++ .RecognizeFile x :: p2 ∧
      w.RecognizeFile (tr0 ++ p1) x = .ret (t, none)) ∧
  (∀ p r q, calls = p ++ .DownloadFile r :: q →
    ∃ p1 t p2, p = p1 ++ .GetStatus t :: p2 ∧ speechOnly p2 = [] ∧
      w.GetStatus (tr0 ++ p1) t = .ret (r, none))

/-! ## Lemmas on traces and on the polling loop -/

theorem statusCalls_append (a b : List Call) :
    statusCalls (a ++ b) = statusCalls a + statusCalls b := by
  simp [statusCalls, List.countP_append]

theorem downloadArgs_append (a b : List Call) :
    downloadArgs (a ++ b) = downloadArgs a ++ downloadArgs b := by
  simp [downloadArgs, List.filterMap_append]

theorem sends_append (a b : List Call) : sends (a ++ b) = sends a ++ sends b := by
  simp [sends, List.filterMap_append]

theorem statusCalls_pendingPolls (taskId : String) (k : Nat) :
    statusCalls (pendingPolls taskId k) = k := by
  induction k with
  | zero => simp [pendingPolls, statusCalls]
  | succ k ih =>
    rw [pendingPolls, statusCalls_append, ih]
    simp [statusCalls, Nat.add_comm]

theorem downloadArgs_pendingPolls (taskId : String) (k : Nat) :
    downloadArgs (pendingPolls taskId k) = [] := by
  induction k with
  | zero => simp [pendingPolls, downloadArgs]
  | succ k ih =>
    rw [pendingPolls, downloadArgs_append, ih]
    simp [downloadArgs]

theorem sends_pendingPolls (taskId : String) (k : Nat) :
    sends (pendingPolls taskId k) = [] := by
  induction k with
  | zero => simp [pendingPolls, sends]
  | succ k ih =>
    rw [pendingPolls, sends_append, ih]
    simp [sends]

/-- While the status endpoint answers "pending", the loop keeps polling: after
`k` such answers `k` iterations are used up and `k` polls are recorded. -/
theorem pollLoop_pending (w : World) (taskId : String) :
    ∀ (k m : Nat) (id0 : String) (tr : List Call),
      (∀ h j, j < k → statusCalls h = statusCalls tr + j →
        w.GetStatus h taskId = .ret ("", none)) →
      pollLoop w taskId (k + m) id0 tr =
        pollLoop w taskId m (if k = 0 then id0 else "") (tr ++ pendingPolls taskId k) := by
  intro k
  induction k with
  | zero => intro m id0 tr _; simp [pendingPolls]
  | succ k ih =>
    intro m id0 tr hp
    have h0 : w.GetStatus tr taskId = .ret ("", none) := hp tr 0 (Nat.succ_pos k) rfl
    have hstep : pollLoop w taskId (k + m + 1) id0 tr =
        pollLoop w taskId (k + m) "" (tr ++ [.GetStatus taskId, .Sleep 3]) := by
      rw [pollLoop, h0]; simp
    have hrest := ih m "" (tr ++ [.GetStatus taskId, .Sleep 3]) (by
      intro h j hj hc
      apply hp h (j + 1) (Nat.succ_lt_succ hj)
      rw [hc, statusCalls_append]
      simp [statusCalls]; omega)
    have hk : k + 1 + m = k + m + 1 := by omega
    rw [hk, hstep, hrest]
    simp [pendingPolls, List.append_assoc]

/-- After `k` pending answers, with an iteration left, a non-empty file id ends
the loop with that id. -/
theorem pollLoop_ready (w : World) (taskId r : String) (k n : Nat) (id0 : String)
    (tr : List Call) (hk : k < n) (hr : r ≠ "")
    (hp : ∀ h j, j < k → statusCalls h = statusCalls tr + j →
      w.GetStatus h taskId = .ret ("", none))
    (hl : ∀ h, statusCalls h = statusCalls tr + k → w.GetStatus h taskId = .ret (r, none)) :
    pollLoop w taskId n id0 tr =
      .done r (tr ++ pendingPolls taskId k ++ [.GetStatus taskId]) := by
  obtain ⟨m, rfl⟩ : ∃ m, n = k + (m + 1) := ⟨n - k - 1, by omega⟩
  rw [pollLoop_pending w taskId k (m + 1) id0 tr hp, pollLoop,
    hl (tr ++ pendingPolls taskId k) (by rw [statusCalls_append, statusCalls_pendingPolls])]
  simp [hr]

/-- After `k` pending answers, with an iteration left, an error ends the loop
at once. -/
theorem pollLoop_error (w : World) (taskId s : String) (e : Error) (k n : Nat) (id0 : String)
    (tr : List Call) (hk : k < n)
    (hp : ∀ h j, j < k → statusCalls h = statusCalls tr + j →
      w.GetStatus h taskId = .ret ("", none))
    (hl : ∀ h, statusCalls h = statusCalls tr + k →
      w.GetStatus h taskId = .ret (s, some e)) :
    pollLoop w taskId n id0 tr =
      .abort (tr ++ pendingPolls taskId k ++ [.GetStatus taskId]) := by
  obtain ⟨m, rfl⟩ : ∃ m, n = k + (m + 1) := ⟨n - k - 1, by omega⟩
  rw [pollLoop_pending w taskId k (m + 1) id0 tr hp, pollLoop,
    hl (tr ++ pendingPolls taskId k) (by rw [statusCalls_append, statusCalls_pendingPolls])]

/-- Ten pending answers use up the loop, which ends with the empty id. -/
theorem pollLoop_exhausted (w : World) (taskId : String) (n : Nat) (id0 : String)
    (tr : List Call)
    (hp : ∀ h j, j < n + 1 → statusCalls h = statusCalls tr + j →
      w.GetStatus h taskId = .ret ("", none)) :
    pollLoop w taskId (n + 1) id0 tr = .done "" (tr ++ pendingPolls taskId (n + 1)) := by
  have h := pollLoop_pending w taskId (n + 1) 0 id0 tr hp
  simpa [pollLoop] using h

/-! ## The voice workflow -/

theorem statusCalls_voiceStart (w : World) (msg : Message) (fid : String) :
    statusCalls (voiceStart w msg fid) = 0 := by
  simp [voiceStart, statusCalls]

theorem statusCalls_getStatus (taskId : String) :
    statusCalls [.GetStatus taskId] = 1 := by
  simp [statusCalls]

theorem downloadArgs_getStatus (taskId : String) :
    downloadArgs [.GetStatus taskId] = [] := by
  simp [downloadArgs]

theorem downloadArgs_voiceStart (w : World) (msg : Message) (fid : String) :
    downloadArgs (voiceStart w msg fid) = [] := by
  simp [voiceStart, downloadArgs]

theorem statusCalls_voiceReply (w : World) (msg : Message) (r : String) (h : List Call) :
    statusCalls (voiceReply w msg r h) = 0 := by
  unfold voiceReply
  split <;> simp [statusCalls]

theorem downloadArgs_voiceReply (w : World) (msg : Message) (r : String) (h : List Call) :
    downloadArgs (voiceReply w msg r h) = [] := by
  unfold voiceReply
  split <;> simp [downloadArgs]

theorem statusCalls_send (u : User) (t : String) : statusCalls [.Send u t] = 0 := by
  simp [statusCalls]

theorem downloadArgs_send (u : User) (t : String) : downloadArgs [.Send u t] = [] := by
  simp [downloadArgs]

/-- The run of `onVoice` when the stages before the polling loop succeed, in
terms of how the loop is left. -/
theorem onVoice_polling (w : World) (msg : Message) (tr0 : List Call) (fid tid : String)
    (hdl : ∀ h, w.downloadFile h msg.Payload (w.getFilename msg.Payload) = none)
    (hup : ∀ h, w.UploadFile h (w.getFilename msg.Payload) = .ret (fid, none))
    (hrec : ∀ h, w.RecognizeFile h fid = .ret (tid, none)) :
    (onVoice w msg tr0).trace =
      match pollLoop w tid 10 fid (tr0 ++ voiceStart w msg fid) with
      | .panic _ tr3 => tr3
      | .abort tr3 => tr3
      | .done r tr3 => tr3 ++ voiceEnd w msg r tr3 := by
  simp only [onVoice, hdl, hup, hrec, voiceStart, voiceEnd, voiceReply]
  have e : tr0 ++ [Call.downloadFile msg.Payload (w.getFilename msg.Payload),
      Call.Send msg.User ("Download " ++ w.getFilename msg.Payload)] ++
      [Call.UploadFile (w.getFilename msg.Payload), Call.Send msg.User "Start recognize..."] ++
      [Call.RecognizeFile fid] =
      tr0 ++ [Call.downloadFile msg.Payload (w.getFilename msg.Payload),
        Call.Send msg.User ("Download " ++ w.getFilename msg.Payload),
        Call.UploadFile (w.getFilename msg.Payload), Call.Send msg.User "Start recognize...",
        Call.RecognizeFile fid] := by simp
  rw [e]
  split
  · rfl
  · rfl
  · split <;> simp_all

/-- C1: in `onVoice`, once the source file is fetched, uploaded and submitted
for recognition (task id `tid`), if `GetStatus` answers an empty id without
error on its first `K` calls (`K < 10`) and a non-empty id `r` without error on
call `K + 1`, then the workflow makes exactly `K + 1` `GetStatus` calls and
then calls `DownloadFile` exactly once, with argument `r`: its calls are
`before`, holding the `K + 1` status calls, then `DownloadFile r`, then `after`,
and neither part holds another `DownloadFile` call. -/
theorem C1_poll_ready_calls (w : World) (msg : Message) (tr0 : List Call)
    (fid tid r : String) (K : Nat) (hK : K < 10) (hr : r ≠ "")
    (hdl : ∀ h, w.downloadFile h msg.Payload (w.getFilename msg.Payload) = none)
    (hup : ∀ h, w.UploadFile h (w.getFilename msg.Payload) = .ret (fid, none))
    (hrec : ∀ h, w.RecognizeFile h fid = .ret (tid, none))
    (hpend : ∀ h j, j < K → statusCalls h = statusCalls tr0 + j →
      w.GetStatus h tid = .ret ("", none))
    (hready : ∀ h, statusCalls h = statusCalls tr0 + K →
      w.GetStatus h tid = .ret (r, none)) :
    ∃ before after, (onVoice w msg tr0).trace = tr0 ++ before ++ [.DownloadFile r] ++ after ∧
      statusCalls before = K + 1 ∧ downloadArgs before = [] ∧
      statusCalls after = 0 ∧ downloadArgs after = [] := by
  have hbase : ∀ x, statusCalls (tr0 ++ voiceStart w msg fid) + x = statusCalls tr0 + x := by
    intro x; rw [statusCalls_append, statusCalls_voiceStart]; rfl
  have hloop := pollLoop_ready w tid r K 10 fid (tr0 ++ voiceStart w msg fid) hK hr
    (fun h j hj hc => hpend h j hj (hc.trans (hbase j)))
    (fun h hc => hready h (hc.trans (hbase K)))
  refine ⟨voiceStart w msg fid ++ pendingPolls tid K ++ [.GetStatus tid] ++
      [.Send msg.User "Get text..."],
    voiceReply w msg r (tr0 ++ voiceStart w msg fid ++ pendingPolls tid K ++ [.GetStatus tid]),
    ?_, ?_, ?_, statusCalls_voiceReply _ _ _ _, downloadArgs_voiceReply _ _ _ _⟩
  · rw [onVoice_polling w msg tr0 fid tid hdl hup hrec, hloop]
    simp [voiceEnd, List.append_assoc]
  · simp only [statusCalls_append, statusCalls_pendingPolls, statusCalls_voiceStart,
      statusCalls_send, statusCalls_getStatus]
    omega
  · simp only [downloadArgs_append, downloadArgs_pendingPolls, downloadArgs_send,
      downloadArgs_voiceStart, downloadArgs_getStatus, List.nil_append]

/-- Witness of C1: pending twice, then `r1`. -/
theorem C1_poll_ready_calls_witness :
    ∃ before after, (onVoice (mockWorld (pendingThen 2 (.ret ("r1", none)))
        (.ret ("transcribed text", none)) (.ret ("", none))) voiceMsg []).trace =
          [] ++ before ++ [.DownloadFile "r1"] ++ after ∧
      statusCalls before = 2 + 1 ∧ downloadArgs before = [] ∧
      statusCalls after = 0 ∧ downloadArgs after = [] :=
  C1_poll_ready_calls _ voiceMsg [] "f1" "t1" "r1" 2 (by decide) (by decide)
    (fun _ => rfl) (fun _ => rfl) (fun _ => rfl)
    (fun h j hj hc => by
      have hc2 : statusCalls h = j := by simpa [statusCalls] using hc
      simp [mockWorld, pendingThen, hc2, hj])
    (fun h hc => by
      have hc2 : statusCalls h = 2 := by simpa [statusCalls] using hc
      simp [mockWorld, pendingThen, hc2])

/-- For every world: when the stages before polling succeed and all ten
`GetStatus` calls answer "pending", `onVoice` polls ten times and then runs its
download stage with the empty id. -/
theorem onVoice_exhausted (w : World) (msg : Message) (tr0 : List Call) (fid tid : String)
    (hdl : ∀ h, w.downloadFile h msg.Payload (w.getFilename msg.Payload) = none)
    (hup : ∀ h, w.UploadFile h (w.getFilename msg.Payload) = .ret (fid, none))
    (hrec : ∀ h, w.RecognizeFile h fid = .ret (tid, none))
    (hpend : ∀ h, w.GetStatus h tid = .ret ("", none)) :
    (onVoice w msg tr0).trace =
      tr0 ++ voiceStart w msg fid ++ pendingPolls tid 10 ++
        voiceEnd w msg "" (tr0 ++ voiceStart w msg fid ++ pendingPolls tid 10) := by
  rw [onVoice_polling w msg tr0 fid tid hdl hup hrec,
    pollLoop_exhausted w tid 9 fid (tr0 ++ voiceStart w msg fid) (fun h _ _ _ => hpend h)]

/-- C2: evaluation at the failing input.  When all ten `GetStatus` calls answer
"pending" (empty id, no error), `onVoice` stops polling after exactly ten
calls, but then goes on: it sends "Get text..." and calls `DownloadFile` with
the empty id. -/
theorem C2_exhausted_downloads_empty_id :
    onVoice (mockWorld (fun _ => .ret ("", none)) (.ret ("", some "wrong status code: 400"))
        (.ret ("", none))) voiceMsg [] =
      ⟨[.downloadFile "https://host/dir/voice.oga" "voice.oga",
        .Send 7 "Download voice.oga", .UploadFile "voice.oga",
        .Send 7 "Start recognize...", .RecognizeFile "f1",
        .GetStatus "t1", .Sleep 3, .GetStatus "t1", .Sleep 3, .GetStatus "t1", .Sleep 3,
        .GetStatus "t1", .Sleep 3, .GetStatus "t1", .Sleep 3, .GetStatus "t1", .Sleep 3,
        .GetStatus "t1", .Sleep 3, .GetStatus "t1", .Sleep 3, .GetStatus "t1", .Sleep 3,
        .GetStatus "t1", .Sleep 3,
        .Send 7 "Get text...", .DownloadFile ""], none⟩ := by
  decide

/-- C3: in `onVoice`, once the stages before polling succeed, if `GetStatus`
returns an error on attempt `K + 1` (`K < 10`, the `K` attempts before it being
pending), the loop aborts at once: that attempt is the last call of the
workflow, so no `GetStatus` call, no `DownloadFile` call and no `Send` follows
it; the workflow made `K + 1` status calls, no `DownloadFile` call, and only
the two progress messages sent before polling. -/
theorem C3_poll_error_aborts (w : World) (msg : Message) (tr0 : List Call)
    (fid tid s : String) (e : Error) (K : Nat) (hK : K < 10)
    (hdl : ∀ h, w.downloadFile h msg.Payload (w.getFilename msg.Payload) = none)
    (hup : ∀ h, w.UploadFile h (w.getFilename msg.Payload) = .ret (fid, none))
    (hrec : ∀ h, w.RecognizeFile h fid = .ret (tid, none))
    (hpend : ∀ h j, j < K → statusCalls h = statusCalls tr0 + j →
      w.GetStatus h tid = .ret ("", none))
    (herr : ∀ h, statusCalls h = statusCalls tr0 + K →
      w.GetStatus h tid = .ret (s, some e)) :
    ∃ calls, (onVoice w msg tr0).trace = tr0 ++ calls ++ [.GetStatus tid] ∧
      statusCalls calls = K ∧ downloadArgs calls = [] ∧
      sends calls = [(msg.User, "Download " ++ w.getFilename msg.Payload),
        (msg.User, "Start recognize...")] := by
  have hbase : ∀ x, statusCalls (tr0 ++ voiceStart w msg fid) + x = statusCalls tr0 + x := by
    intro x; rw [statusCalls_append, statusCalls_voiceStart]; rfl
  have hloop := pollLoop_error w tid s e K 10 fid (tr0 ++ voiceStart w msg fid) hK
    (fun h j hj hc => hpend h j hj (hc.trans (hbase j)))
    (fun h hc => herr h (hc.trans (hbase K)))
  refine ⟨voiceStart w msg fid ++ pendingPolls tid K, ?_, ?_, ?_, ?_⟩
  · rw [onVoice_polling w msg tr0 fid tid hdl hup hrec, hloop]
    simp [List.append_assoc]
  · simp only [statusCalls_append, statusCalls_pendingPolls, statusCalls_voiceStart]
    omega
  · simp only [downloadArgs_append, downloadArgs_pendingPolls, downloadArgs_voiceStart,
      List.nil_append]
  · simp only [sends_append, sends_pendingPolls, List.append_nil]
    simp [sends, voiceStart]

/-- Witness of C3: pending three times, then an upstream failure. -/
theorem C3_poll_error_aborts_witness :
    ∃ calls, (onVoice (mockWorld (pendingThen 3 (.ret ("ERROR", some "error: bad audio")))
        (.ret ("transcribed text", none)) (.ret ("", none))) voiceMsg []).trace =
          [] ++ calls ++ [.GetStatus "t1"] ∧
      statusCalls calls = 3 ∧ downloadArgs calls = [] ∧
      sends calls = [(7, "Download voice.oga"), (7, "Start recognize...")] :=
  C3_poll_error_aborts _ voiceMsg [] "f1" "t1" "ERROR" "error: bad audio" 3 (by decide)
    (fun _ => rfl) (fun _ => rfl) (fun _ => rfl)
    (fun h j hj hc => by
      have hc2 : statusCalls h = j := by simpa [statusCalls] using hc
      simp [mockWorld, pendingThen, hc2, hj])
    (fun h hc => by
      have hc2 : statusCalls h = 3 := by simpa [statusCalls] using hc
      simp [mockWorld, pendingThen, hc2])

/-! ## The dispatcher -/

/-- C4: evaluation at the failing input.  The transcript download answers
HTTP 200 with the chunk list `[{"results": []}]`; `DownloadFile` indexes
`Results[0]` of an empty slice, so `processor` panics instead of returning, and
`Start` never handles the text event queued behind the voice event. -/
theorem C4_empty_results_panics :
    processor (clientWorld (mockNet [⟨200, [], false, 0, 0⟩]) staleSpeech staleChat)
        voiceMsg [] =
      ⟨[.downloadFile "https://host/dir/voice.oga" "voice.oga",
        .Send 7 "Download voice.oga", .UploadFile "voice.oga",
        .Send 7 "Start recognize...", .RecognizeFile "f1", .GetStatus "t1",
        .Send 7 "Get text...", .DownloadFile "r1"],
        some "runtime error: index out of range [0] with length 0"⟩ ∧
    Start (clientWorld (mockNet [⟨200, [], false, 0, 0⟩]) staleSpeech staleChat)
        [voiceMsg, textMsg] [] =
      processor (clientWorld (mockNet [⟨200, [], false, 0, 0⟩]) staleSpeech staleChat)
        voiceMsg [] := by
  decide

/-! ## Token lifetime -/

/-- C5: evaluation at the failing input.  The stored token of `staleSpeech`
and `staleChat` expired at instant 100; at instant 200 `GetToken` would perform
the exchange, yet each request operation sends exactly one request, to its own
endpoint and none to the identity endpoint, whose `Authorization` header
carries the stored token `old`. -/
theorem C5_stale_token_is_sent
    (up : Request → HttpResult salutespeech.UploadResponse)
    (rec : Request → HttpResult salutespeech.RecognizeResponse)
    (st : Request → HttpResult salutespeech.StatusResponse)
    (dl : Request → HttpResult (List salutespeech.DownloadResponse))
    (ch : Request → HttpResult gigachat.CompletionResponse) :
    After staleSpeech.expire 200 = false ∧ After staleChat.expire 200 = false ∧
    (salutespeech.UploadFile staleSpeech "voice.oga" (fun _ => .ok ⟨.ok 3, [79, 103, 103]⟩)
        up).sent.map (fun r => (r.uri, header r "Authorization")) =
      [(salutespeech.UploadUrl, some "Bearer old")] ∧
    (salutespeech.RecognizeFile staleSpeech "f1" rec).sent.map
        (fun r => (r.uri, header r "Authorization")) =
      [(salutespeech.RecognizeUrl, some "Bearer old")] ∧
    (salutespeech.GetStatus staleSpeech "t1" st).sent.map
        (fun r => (r.uri, header r "Authorization")) =
      [(salutespeech.StatusUrl ++ "?id=t1", some "Bearer old")] ∧
    (salutespeech.DownloadFile staleSpeech "r1" dl).sent.map
        (fun r => (r.uri, header r "Authorization")) =
      [(salutespeech.DownloadUrl ++ "?response_file_id=r1", some "Bearer old")] ∧
    (gigachat.GetCompletions staleChat "hello" ch).sent.map
        (fun r => (r.uri, header r "Authorization")) =
      [(gigachat.GetCompletionstUrl, some "Bearer old")] := by
  refine ⟨by decide, by decide, ?_, ?_, ?_, ?_, ?_⟩ <;> rfl

theorem salutespeech_GetToken_valid (c : salutespeech.Client) (now now2 : Time)
    (rqUID : String) (http : Request → HttpResult salutespeech.Token)
    (h : (!IsZero c.expire && After c.expire now) = true) :
    salutespeech.GetToken c now rqUID http now2 = ⟨(none, c), []⟩ := by
  simp only [salutespeech.GetToken, h, if_true]

theorem salutespeech_GetToken_stale (c : salutespeech.Client) (now now2 : Time)
    (rqUID : String) (http : Request → HttpResult salutespeech.Token)
    (h : (!IsZero c.expire && After c.expire now) = false) :
    (salutespeech.GetToken c now rqUID http now2).sent = [salutespeech.tokenRequest c rqUID] := by
  simp only [salutespeech.GetToken, h]
  cases http (salutespeech.tokenRequest c rqUID) with
  | fail err => rfl
  | resp code raw json =>
    by_cases hc : code = StatusOK
    · cases json <;> simp [hc]
    · simp [hc]

theorem gigachat_GetToken_valid (c : gigachat.Client) (now : Time)
    (rqUID : String) (http : Request → HttpResult gigachat.Token)
    (h : (!IsZero c.expire && After c.expire now) = true) :
    gigachat.GetToken c now rqUID http = ⟨(none, c), []⟩ := by
  simp only [gigachat.GetToken, h, if_true]

theorem gigachat_GetToken_stale (c : gigachat.Client) (now : Time)
    (rqUID : String) (http : Request → HttpResult gigachat.Token)
    (h : (!IsZero c.expire && After c.expire now) = false) :
    (gigachat.GetToken c now rqUID http).sent = [gigachat.tokenRequest c rqUID] := by
  simp only [gigachat.GetToken, h]
  cases http (gigachat.tokenRequest c rqUID) with
  | fail err => rfl
  | resp code raw json =>
    by_cases hc : code = StatusOK
    · cases json <;> simp [hc]
    · simp [hc]

theorem validity_check (expire now : Time) :
    (!IsZero expire && After expire now) = true ↔ ¬ (expire = 0 ∨ expire ≤ now) := by
  simp [IsZero, After]

/-- C6: for both clients, for every stored expiry and every clock reading
`now` (a clock never reads an instant before the zero `time.Time`), `GetToken`
performs the authentication exchange (sends its one request to the identity
endpoint) if and only if the expiry is unset (zero) or `now >= expire`; when
the expiry is strictly after `now`, it sends no request, returns no error and
leaves the client (token and expiry) unchanged. -/
theorem C6_refresh_iff_expired (sc : salutespeech.Client) (gc : gigachat.Client)
    (now now2 : Time) (rqUID : String)
    (shttp : Request → HttpResult salutespeech.Token)
    (ghttp : Request → HttpResult gigachat.Token) (hnow : 0 ≤ now) :
    ((salutespeech.GetToken sc now rqUID shttp now2).sent =
        [salutespeech.tokenRequest sc rqUID] ↔ (sc.expire = 0 ∨ sc.expire ≤ now)) ∧
    (now < sc.expire →
      (salutespeech.GetToken sc now rqUID shttp now2).sent = [] ∧
      (salutespeech.GetToken sc now rqUID shttp now2).out = (none, sc)) ∧
    ((gigachat.GetToken gc now rqUID ghttp).sent =
        [gigachat.tokenRequest gc rqUID] ↔ (gc.expire = 0 ∨ gc.expire ≤ now)) ∧
    (now < gc.expire →
      (gigachat.GetToken gc now rqUID ghttp).sent = [] ∧
      (gigachat.GetToken gc now rqUID ghttp).out = (none, gc)) := by
  refine ⟨?_, ?_, ?_, ?_⟩
  · by_cases h : (!IsZero sc.expire && After sc.expire now) = true
    · have hn := (validity_check sc.expire now).1 h
      rw [salutespeech_GetToken_valid sc now now2 rqUID shttp h]
      simp [hn]
    · have hn : sc.expire = 0 ∨ sc.expire ≤ now := by
        by_contra hc; exact h ((validity_check sc.expire now).2 hc)
      rw [salutespeech_GetToken_stale sc now now2 rqUID shttp (by simpa using h)]
      simp [hn]
  · intro hlt
    have h : (!IsZero sc.expire && After sc.expire now) = true :=
      (validity_check sc.expire now).2 (by
        rintro (h0 | hle)
        · rw [h0] at hlt; exact absurd hlt (not_lt.mpr hnow)
        · exact absurd hlt (not_lt.mpr hle))
    rw [salutespeech_GetToken_valid sc now now2 rqUID shttp h]
    exact ⟨rfl, rfl⟩
  · by_cases h : (!IsZero gc.expire && After gc.expire now) = true
    · have hn := (validity_check gc.expire now).1 h
      rw [gigachat_GetToken_valid gc now rqUID ghttp h]
      simp [hn]
    · have hn : gc.expire = 0 ∨ gc.expire ≤ now := by
        by_contra hc; exact h ((validity_check gc.expire now).2 hc)
      rw [gigachat_GetToken_stale gc now rqUID ghttp (by simpa using h)]
      simp [hn]
  · intro hlt
    have h : (!IsZero gc.expire && After gc.expire now) = true :=
      (validity_check gc.expire now).2 (by
        rintro (h0 | hle)
        · rw [h0] at hlt; exact absurd hlt (not_lt.mpr hnow)
        · exact absurd hlt (not_lt.mpr hle))
    rw [gigachat_GetToken_valid gc now rqUID ghttp h]
    exact ⟨rfl, rfl⟩

/-- Witness of C6: a token valid until instant 500 is kept at instant 100. -/
theorem C6_refresh_iff_expired_witness :
    (0 : Time) ≤ 100 ∧
    (salutespeech.GetToken ⟨"key", "tok", 500⟩ 100 "uid" (fun _ => .fail "down") 101).sent = [] ∧
    (salutespeech.GetToken ⟨"key", "tok", 500⟩ 100 "uid" (fun _ => .fail "down") 101).out =
      (none, ⟨"key", "tok", 500⟩) :=
  ⟨by decide,
    (C6_refresh_iff_expired ⟨"key", "tok", 500⟩ ⟨"key", "tok", 500⟩ 100 101 "uid"
      (fun _ => .fail "down") (fun _ => .fail "down") (by decide)).2.1 (by decide)⟩

/-! ## End-to-end scenarios -/

theorem processor_voice (w : World) (msg : Message) (tr : List Call)
    (hv : msg.Typ = "voice") : processor w msg tr = onVoice w msg tr := by
  simp [processor, hv]

theorem processor_text (w : World) (msg : Message) (tr : List Call)
    (ht : msg.Typ = "text") : processor w msg tr = onText w msg tr := by
  simp [processor, ht]

theorem sends_voiceStart (w : World) (msg : Message) (fid : String) :
    sends (voiceStart w msg fid) =
      [(msg.User, "Download " ++ w.getFilename msg.Payload),
        (msg.User, "Start recognize...")] := by
  simp [voiceStart, sends]

theorem sends_getStatus (taskId : String) : sends [.GetStatus taskId] = [] := by
  simp [sends]

theorem sends_voiceEnd (w : World) (msg : Message) (r t : String) (h : List Call)
    (hdown : ∀ h, w.DownloadFile h r = .ret (t, none)) :
    sends (voiceEnd w msg r h) =
      [(msg.User, "Get text..."), (msg.User, "Text: " ++ t ++ "\n")] := by
  simp [voiceEnd, voiceReply, hdown, sends]

/-- C7: for every Voice event whose source file download, `UploadFile`,
`RecognizeFile`, polling (a non-empty result id `r` on attempt `K + 1`,
`K < 10`, after `K` pending answers) and `DownloadFile` (transcript `t`) all
succeed, the dispatcher makes exactly four `Send` calls, all to the
originating user, in this order: "Download <fileName>", "Start recognize...",
"Get text..." and "Text: t\n". -/
theorem C7_voice_four_sends (w : World) (msg : Message) (tr0 : List Call)
    (fid tid r t : String) (K : Nat) (hv : msg.Typ = "voice") (hK : K < 10) (hr : r ≠ "")
    (hdl : ∀ h, w.downloadFile h msg.Payload (w.getFilename msg.Payload) = none)
    (hup : ∀ h, w.UploadFile h (w.getFilename msg.Payload) = .ret (fid, none))
    (hrec : ∀ h, w.RecognizeFile h fid = .ret (tid, none))
    (hpend : ∀ h j, j < K → statusCalls h = statusCalls tr0 + j →
      w.GetStatus h tid = .ret ("", none))
    (hready : ∀ h, statusCalls h = statusCalls tr0 + K →
      w.GetStatus h tid = .ret (r, none))
    (hdown : ∀ h, w.DownloadFile h r = .ret (t, none)) :
    ∃ calls, (processor w msg tr0).trace = tr0 ++ calls ∧
      sends calls =
        [(msg.User, "Download " ++ w.getFilename msg.Payload),
          (msg.User, "Start recognize..."),
          (msg.User, "Get text..."),
          (msg.User, "Text: " ++ t ++ "\n")] := by
  have hbase : ∀ x, statusCalls (tr0 ++ voiceStart w msg fid) + x = statusCalls tr0 + x := by
    intro x; rw [statusCalls_append, statusCalls_voiceStart]; rfl
  have hloop := pollLoop_ready w tid r K 10 fid (tr0 ++ voiceStart w msg fid) hK hr
    (fun h j hj hc => hpend h j hj (hc.trans (hbase j)))
    (fun h hc => hready h (hc.trans (hbase K)))
  refine ⟨voiceStart w msg fid ++ pendingPolls tid K ++ [.GetStatus tid] ++
    voiceEnd w msg r (tr0 ++ voiceStart w msg fid ++ pendingPolls tid K ++ [.GetStatus tid]),
    ?_, ?_⟩
  · rw [processor_voice w msg tr0 hv, onVoice_polling w msg tr0 fid tid hdl hup hrec, hloop]
    simp [List.append_assoc]
  · simp only [sends_append, sends_pendingPolls, sends_voiceStart, sends_getStatus,
      sends_voiceEnd w msg r t _ hdown, List.append_nil]
    rfl

/-- Witness of C7: the scenario upload `f1`, recognition `t1`, one pending poll
then `r1`, transcript "transcribed text". -/
theorem C7_voice_four_sends_witness :
    ∃ calls, (processor (mockWorld (pendingThen 1 (.ret ("r1", none)))
        (.ret ("transcribed text", none)) (.ret ("", none))) voiceMsg []).trace = [] ++ calls ∧
      sends calls = [(7, "Download voice.oga"), (7, "Start recognize..."),
        (7, "Get text..."), (7, "Text: transcribed text\n")] :=
  C7_voice_four_sends _ voiceMsg [] "f1" "t1" "r1" "transcribed text" 1 rfl (by decide)
    (by decide) (fun _ => rfl) (fun _ => rfl) (fun _ => rfl)
    (fun h j hj hc => by
      have hc2 : statusCalls h = j := by simpa [statusCalls] using hc
      have hj0 : j = 0 := by omega
      simp [mockWorld, pendingThen, hc2, hj0])
    (fun h hc => by
      have hc2 : statusCalls h = 1 := by simpa [statusCalls] using hc
      simp [mockWorld, pendingThen, hc2])
    (fun _ => rfl)

/-- C8: for every Text event with payload `p` and user `u`: if
`GetCompletions(p)` returns answer `a` without error, the dispatcher calls the
chat client once and then makes exactly one `Send` call, `Send(u, a)`; if it
returns an error, the dispatcher makes no `Send` call at all.  In neither case
is a speech-client operation invoked, and the handler returns normally. -/
theorem C8_text_reply_or_drop (w : World) (msg : Message) (tr0 : List Call)
    (ht : msg.Typ = "text") :
    (∀ a, w.GetCompletions tr0 msg.Payload = .ret (a, none) →
      processor w msg tr0 =
        ⟨tr0 ++ [.GetCompletions msg.Payload, .Send msg.User a], none⟩ ∧
      sends [.GetCompletions msg.Payload, .Send msg.User a] = [(msg.User, a)] ∧
      speechCalls [.GetCompletions msg.Payload, .Send msg.User a] = 0) ∧
    (∀ x e, w.GetCompletions tr0 msg.Payload = .ret (x, some e) →
      processor w msg tr0 = ⟨tr0 ++ [.GetCompletions msg.Payload], none⟩ ∧
      sends [Call.GetCompletions msg.Payload] = [] ∧
      speechCalls [Call.GetCompletions msg.Payload] = 0) := by
  refine ⟨?_, ?_⟩
  · intro a ha
    refine ⟨?_, by simp [sends], by simp [speechCalls]⟩
    rw [processor_text w msg tr0 ht]
    simp [onText, ha]
  · intro x e he
    refine ⟨?_, by simp [sends], by simp [speechCalls]⟩
    rw [processor_text w msg tr0 ht]
    simp [onText, he]

/-- Witness of C8: the chat answers "hi there" to "hello". -/
theorem C8_text_reply_or_drop_witness :
    textMsg.Typ = "text" ∧
    processor (mockWorld (fun _ => .ret ("", none)) (.ret ("", none))
        (.ret ("hi there", none))) textMsg [] =
      ⟨[.GetCompletions "hello", .Send 7 "hi there"], none⟩ :=
  ⟨rfl, ((C8_text_reply_or_drop (mockWorld (fun _ => .ret ("", none)) (.ret ("", none))
    (.ret ("hi there", none))) textMsg [] rfl).1 "hi there" rfl).1⟩

/-! ## Classification of speech-service answers -/

/-- C9: for every status answer that arrives with HTTP 200 and decodes to a
body with status 200, `GetStatus` returns as follows: if `result.status` is
"ERROR" it returns the error "error: " followed by the upstream `result.error`
message; otherwise it returns `result.response_file_id` with no error (so the
empty string, and no error, when the job reports no result file yet). -/
theorem C9_status_classification (c : salutespeech.Client) (taskId : String)
    (http : Request → HttpResult salutespeech.StatusResponse) (raw : List Nat)
    (res : salutespeech.StatusResponse)
    (hresp : http (salutespeech.statusRequest c taskId) = .resp 200 raw (.ok res))
    (hst : res.Status = 200) :
    (res.Result.Status = "ERROR" →
      ∃ id, (salutespeech.GetStatus c taskId http).out =
        .ret (id, some ("error: " ++ res.Result.Error))) ∧
    (res.Result.Status ≠ "ERROR" →
      (salutespeech.GetStatus c taskId http).out = .ret (res.Result.ResponseFileId, none)) ∧
    (res.Result.Status ≠ "ERROR" → res.Result.ResponseFileId = "" →
      (salutespeech.GetStatus c taskId http).out = .ret ("", none)) := by
  have hout : (salutespeech.GetStatus c taskId http).out =
      if res.Result.Status = "ERROR" then .ret ("ERROR", some ("error: " ++ res.Result.Error))
      else .ret (res.Result.ResponseFileId, none) := by
    simp [salutespeech.GetStatus, hresp, salutespeech.statusResult, StatusOK, hst]
  refine ⟨fun he => ⟨"ERROR", by rw [hout, if_pos he]⟩, fun hne => by rw [hout, if_neg hne],
    fun hne hid => by rw [hout, if_neg hne, hid]⟩

/-- Witness of C9: an upstream failure "bad audio". -/
theorem C9_status_classification_witness :
    ∃ id, (salutespeech.GetStatus staleSpeech "t1"
        (fun _ => .resp 200 [] (.ok ⟨200, ⟨"t1", "", "", "ERROR", "", "bad audio"⟩⟩))).out =
      .ret (id, some "error: bad audio") :=
  (C9_status_classification staleSpeech "t1"
    (fun _ => .resp 200 [] (.ok ⟨200, ⟨"t1", "", "", "ERROR", "", "bad audio"⟩⟩)) []
    ⟨200, ⟨"t1", "", "", "ERROR", "", "bad audio"⟩⟩ rfl rfl).1 rfl

/-- C10, as stated, fails: for the non-empty chunk list `[{"results": []}]`
arriving with HTTP 200, `DownloadFile` does not return a text without error;
it panics on `Results[0]`. -/
theorem C10_first_chunk_without_results :
    (salutespeech.DownloadFile staleSpeech "r1"
        (fun _ => .resp 200 [] (.ok [⟨200, [], false, 0, 0⟩]))).out =
      .panic "runtime error: index out of range [0] with length 0" ∧
    ¬ ∃ t, (salutespeech.DownloadFile staleSpeech "r1"
        (fun _ => .resp 200 [] (.ok [⟨200, [], false, 0, 0⟩]))).out = .ret (t, none) := by
  refine ⟨rfl, ?_⟩
  rintro ⟨t, ht⟩
  have hp : (salutespeech.DownloadFile staleSpeech "r1"
      (fun _ => .resp 200 [] (.ok [⟨200, [], false, 0, 0⟩]))).out =
      .panic "runtime error: index out of range [0] with length 0" := rfl
  rw [hp] at ht
  cases ht

/-- C10, amended: for every download answer that arrives with HTTP 200 and
decodes to a list of result chunks: if the list is empty, `DownloadFile`
returns the empty string with no error; if the list is non-empty and its first
chunk has at least one result, `DownloadFile` returns the text of `results[0]`
of the first chunk with no error, whatever the later results and chunks. -/
theorem C10_first_chunk_text (c : salutespeech.Client) (reqFileId : String)
    (http : Request → HttpResult (List salutespeech.DownloadResponse)) (raw : List Nat)
    (chunks : List salutespeech.DownloadResponse)
    (hresp : http (salutespeech.downloadRequest c reqFileId) = .resp 200 raw (.ok chunks)) :
    (chunks = [] → (salutespeech.DownloadFile c reqFileId http).out = .ret ("", none)) ∧
    (∀ first rest x xs, chunks = first :: rest → first.Results = x :: xs →
      (salutespeech.DownloadFile c reqFileId http).out = .ret (x.Text, none)) := by
  refine ⟨?_, ?_⟩
  · intro he
    simp [salutespeech.DownloadFile, hresp, salutespeech.downloadResult, StatusOK, he,
      salutespeech.firstText]
  · intro first rest x xs he hx
    simp [salutespeech.DownloadFile, hresp, salutespeech.downloadResult, StatusOK, he,
      salutespeech.firstText, hx]

/-- Witness of C10 (amended): two chunks, the first with two results. -/
theorem C10_first_chunk_text_witness :
    (salutespeech.DownloadFile staleSpeech "r1"
        (fun _ => .resp 200 [] (.ok [⟨200, [⟨"hello", "Hello.", "r1"⟩, ⟨"x", "X", "r1"⟩],
          true, 0, 0⟩, ⟨200, [], true, 0, 0⟩]))).out = .ret ("hello", none) :=
  (C10_first_chunk_text staleSpeech "r1"
    (fun _ => .resp 200 [] (.ok [⟨200, [⟨"hello", "Hello.", "r1"⟩, ⟨"x", "X", "r1"⟩],
      true, 0, 0⟩, ⟨200, [], true, 0, 0⟩])) [] _ rfl).2 _ _ _ _ rfl rfl

/-! ## Lifecycle of a transcription job -/

theorem speechOnly_append (a b : List Call) :
    speechOnly (a ++ b) = speechOnly a ++ speechOnly b := by
  simp [speechOnly]

theorem speechOnly_pendingPolls (taskId : String) (k : Nat) :
    speechOnly (pendingPolls taskId k) = List.replicate k (.GetStatus taskId) := by
  induction k with
  | zero => rfl
  | succ k ih =>
    rw [pendingPolls, speechOnly_append, ih, List.replicate_succ]
    rfl

theorem mem_pendingPolls (taskId : String) (k : Nat) (c : Call)
    (h : c ∈ pendingPolls taskId k) : c = .GetStatus taskId ∨ c = .Sleep 3 := by
  induction k with
  | zero => simp [pendingPolls] at h
  | succ k ih =>
    rw [pendingPolls] at h
    simp only [List.mem_append, List.mem_cons, List.mem_singleton, List.not_mem_nil,
      or_false] at h
    rcases h with (h | h) | h
    · exact Or.inl h
    · exact Or.inr h
    · exact ih h

theorem not_isSpeech_of_speechOnly_nil (l : List Call) (h : speechOnly l = []) (c : Call)
    (hc : c ∈ l) : isSpeech c = false := by
  unfold speechOnly at h
  rw [List.filter_eq_nil_iff] at h
  simpa using h c hc

/-- If a list splits at an element satisfying `P`, and `P` holds nowhere else
in the list, then every split at an element satisfying `P` is that split. -/
theorem split_at_mark {α : Type} (P : α → Prop) (a b : α) (B q : List α) :
    ∀ (A p : List α), A ++ a :: B = p ++ b :: q → P b →
      (∀ c ∈ A, ¬ P c) → (∀ c ∈ B, ¬ P c) → p = A ∧ b = a ∧ q = B := by
  intro A
  induction A with
  | nil =>
    intro p h hb _ hB
    cases p with
    | nil =>
      simp only [List.nil_append, List.cons.injEq] at h
      exact ⟨rfl, h.1.symm, h.2.symm⟩
    | cons c p1 =>
      simp only [List.nil_append, List.cons_append, List.cons.injEq] at h
      exact absurd hb (hB b (by rw [h.2]; simp))
  | cons a1 A1 ih =>
    intro p h hb hA hB
    cases p with
    | nil =>
      simp only [List.nil_append, List.cons_append, List.cons.injEq] at h
      exact absurd hb (by rw [← h.1]; exact hA a1 (by simp))
    | cons c p1 =>
      simp only [List.cons_append, List.cons.injEq] at h
      obtain ⟨h1, h2, h3⟩ := ih p1 h.2 hb (fun c hc => hA c (by simp [hc])) hB
      exact ⟨by rw [h.1, h1], h2, h3⟩

/-- If `P` holds nowhere in `S`, every split of `S ++ T` at an element
satisfying `P` falls inside `T`. -/
theorem split_after_mark {α : Type} (P : α → Prop) (b : α) (T q : List α) :
    ∀ (S p : List α), S ++ T = p ++ b :: q → P b → (∀ c ∈ S, ¬ P c) →
      ∃ m, p = S ++ m ∧ T = m ++ b :: q := by
  intro S
  induction S with
  | nil => intro p h _ _; exact ⟨p, rfl, h⟩
  | cons s S1 ih =>
    intro p h hb hS
    cases p with
    | nil =>
      simp only [List.nil_append, List.cons_append, List.cons.injEq] at h
      exact absurd hb (by rw [← h.1]; exact hS s (by simp))
    | cons c p1 =>
      simp only [List.cons_append, List.cons.injEq] at h
      obtain ⟨m, h1, h2⟩ := ih p1 h.2 hb (fun c hc => hS c (by simp [hc]))
      exact ⟨m, by rw [h.1, h1]; rfl, h2⟩

/-- Every way the polling loop can be left, for every behaviour of the status
endpoint: with no iteration to run it is left at once; otherwise it makes
`k + 1` status calls for some `k` below the number of iterations, the last one
at history `tr ++ pendingPolls taskId k`, and is left with the value that call
returned without error (possibly after a final sleep), or aborted, or by a
panic. -/
theorem pollLoop_shape (w : World) (taskId : String) :
    ∀ (n : Nat) (id0 : String) (tr : List Call),
      (n = 0 ∧ pollLoop w taskId n id0 tr = .done id0 tr) ∨
      ∃ k, k < n ∧
        ((∃ r tail, (tail = [] ∨ tail = [.Sleep 3]) ∧
            pollLoop w taskId n id0 tr =
              .done r (tr ++ pendingPolls taskId k ++ [.GetStatus taskId] ++ tail) ∧
            w.GetStatus (tr ++ pendingPolls taskId k) taskId = .ret (r, none)) ∨
          pollLoop w taskId n id0 tr =
            .abort (tr ++ pendingPolls taskId k ++ [.GetStatus taskId]) ∨
          ∃ m, pollLoop w taskId n id0 tr =
            .panic m (tr ++ pendingPolls taskId k ++ [.GetStatus taskId])) := by
  intro n
  induction n with
  | zero => intro id0 tr; exact Or.inl ⟨rfl, rfl⟩
  | succ n ih =>
    intro id0 tr
    right
    cases hg : w.GetStatus tr taskId with
    | panic m =>
      exact ⟨0, Nat.succ_pos n, Or.inr (Or.inr ⟨m, by simp [pollLoop, hg, pendingPolls]⟩)⟩
    | ret res =>
      obtain ⟨id, err⟩ := res
      cases err with
      | some e =>
        exact ⟨0, Nat.succ_pos n, Or.inr (Or.inl (by simp [pollLoop, hg, pendingPolls]))⟩
      | none =>
        by_cases hid : id = ""
        · subst hid
          have hstep : pollLoop w taskId (n + 1) id0 tr =
              pollLoop w taskId n "" (tr ++ [.GetStatus taskId, .Sleep 3]) := by
            rw [pollLoop, hg]; simp
          rcases ih "" (tr ++ [.GetStatus taskId, .Sleep 3]) with ⟨hn, hdone⟩ | ⟨k, hk, hcase⟩
          · refine ⟨0, Nat.succ_pos n, Or.inl ⟨"", [.Sleep 3], Or.inr rfl, ?_, ?_⟩⟩
            · rw [hstep, hdone]; simp [pendingPolls]
            · simpa [pendingPolls] using hg
          · have happ : tr ++ [Call.GetStatus taskId, Call.Sleep 3] ++ pendingPolls taskId k =
                tr ++ pendingPolls taskId (k + 1) := by
              simp [pendingPolls]
            rw [happ] at hcase
            rw [← hstep] at hcase
            exact ⟨k + 1, Nat.succ_lt_succ hk, hcase⟩
        · refine ⟨0, Nat.succ_pos n, Or.inl ⟨id, [], Or.inl rfl, ?_, ?_⟩⟩
          · rw [pollLoop, hg]; simp [hid, pendingPolls]
          · simpa [pendingPolls] using hg

theorem mem_of_split {α : Type} (l p q : List α) (c : α) (h : l = p ++ c :: q) : c ∈ l := by
  rw [h]; simp

/-- The lifecycle holds when the workflow ends before any speech call. -/
theorem lifecycle_no_upload (w : World) (msg : Message) (tr0 : List Call) :
    Lifecycle w msg tr0 [.downloadFile msg.Payload (w.getFilename msg.Payload)] := by
  refine ⟨⟨"", "", "", 1, by omega, by omega, ?_⟩, ?_, ?_, ?_⟩
  · exact List.nil_prefix
  · intro p x q h
    have hm := mem_of_split _ p q _ h
    simp at hm
  · intro p x q h
    have hm := mem_of_split _ p q _ h
    simp at hm
  · intro p x q h
    have hm := mem_of_split _ p q _ h
    simp at hm

/-- The lifecycle holds when the workflow ends with the upload. -/
theorem lifecycle_upload (w : World) (msg : Message) (tr0 : List Call) :
    Lifecycle w msg tr0 [.downloadFile msg.Payload (w.getFilename msg.Payload),
      .Send msg.User ("Download " ++ w.getFilename msg.Payload),
      .UploadFile (w.getFilename msg.Payload)] := by
  refine ⟨⟨"", "", "", 1, by omega, by omega, ?_⟩, ?_, ?_, ?_⟩
  · exact ⟨_, rfl⟩
  · intro p x q h
    have hm := mem_of_split _ p q _ h
    simp at hm
  · intro p x q h
    have hm := mem_of_split _ p q _ h
    simp at hm
  · intro p x q h
    have hm := mem_of_split _ p q _ h
    simp at hm

/-- The lifecycle holds when the workflow ends with the recognize call. -/
theorem lifecycle_recognize (w : World) (msg : Message) (tr0 : List Call) (fid : String)
    (hup : w.UploadFile (tr0 ++ [.downloadFile msg.Payload (w.getFilename msg.Payload),
      .Send msg.User ("Download " ++ w.getFilename msg.Payload)])
      (w.getFilename msg.Payload) = .ret (fid, none)) :
    Lifecycle w msg tr0 (voiceStart w msg fid) := by
  refine ⟨⟨fid, "", "", 1, by omega, by omega, ?_⟩, ?_, ?_, ?_⟩
  · exact ⟨_, rfl⟩
  · intro p x q h
    have hs := split_at_mark (fun c => ∃ y, c = Call.RecognizeFile y) (.RecognizeFile fid)
      (.RecognizeFile x) [] q
      [.downloadFile msg.Payload (w.getFilename msg.Payload),
        .Send msg.User ("Download " ++ w.getFilename msg.Payload),
        .UploadFile (w.getFilename msg.Payload), .Send msg.User "Start recognize..."] p
      h ⟨x, rfl⟩ (by simp) (by simp)
    obtain ⟨hp, hx, _⟩ := hs
    refine ⟨[.downloadFile msg.Payload (w.getFilename msg.Payload),
        .Send msg.User ("Download " ++ w.getFilename msg.Payload)],
      w.getFilename msg.Payload, [.Send msg.User "Start recognize..."], ?_, rfl, ?_⟩
    · rw [hp]; rfl
    · injection hx with hx
      rw [hx]; exact hup
  · intro p x q h
    have hm := mem_of_split _ p q _ h
    simp [voiceStart] at hm
  · intro p x q h
    have hm := mem_of_split _ p q _ h
    simp [voiceStart] at hm

theorem speechOnly_voiceStart (w : World) (msg : Message) (fid : String) :
    speechOnly (voiceStart w msg fid) =
      [.UploadFile (w.getFilename msg.Payload), .RecognizeFile fid] := rfl

/-- The lifecycle holds when the workflow reaches the polling loop, makes
`k + 1` status calls and then either ends (`rest = []`) or goes on to a
download with the value `r` the last status call returned. -/
theorem lifecycle_polled (w : World) (msg : Message) (tr0 : List Call) (fid tid : String)
    (k : Nat) (rest : List Call) (hk : k < 10)
    (hup : w.UploadFile (tr0 ++ [.downloadFile msg.Payload (w.getFilename msg.Payload),
      .Send msg.User ("Download " ++ w.getFilename msg.Payload)])
      (w.getFilename msg.Payload) = .ret (fid, none))
    (hrec : w.RecognizeFile (tr0 ++ [.downloadFile msg.Payload (w.getFilename msg.Payload),
      .Send msg.User ("Download " ++ w.getFilename msg.Payload),
      .UploadFile (w.getFilename msg.Payload), .Send msg.User "Start recognize..."])
      fid = .ret (tid, none))
    (hrest : rest = [] ∨ ∃ r tail after,
      rest = tail ++ [.Send msg.User "Get text...", .DownloadFile r] ++ after ∧
      speechOnly tail = [] ∧ speechOnly after = [] ∧
      w.GetStatus (tr0 ++ (voiceStart w msg fid ++ pendingPolls tid k)) tid = .ret (r, none)) :
    Lifecycle w msg tr0 (voiceStart w msg fid ++ pendingPolls tid k ++ [.GetStatus tid] ++ rest) := by
  -- the speech calls of `rest` are at most one download
  have hrestmem : ∀ c ∈ rest, isSpeech c = true → ∃ r, c = Call.DownloadFile r := by
    intro c hc hs
    rcases hrest with h0 | ⟨r, tail, after, hr, ht, ha, _⟩
    · rw [h0] at hc; simp at hc
    · rw [hr] at hc
      simp only [List.mem_append, List.mem_cons, List.mem_singleton, List.not_mem_nil,
        or_false] at hc
      rcases hc with (hc | hc | hc) | hc
      · rw [not_isSpeech_of_speechOnly_nil tail ht c hc] at hs; cases hs
      · rw [hc] at hs; cases hs
      · exact ⟨r, hc⟩
      · rw [not_isSpeech_of_speechOnly_nil after ha c hc] at hs; cases hs
  refine ⟨?_, ?_, ?_, ?_⟩
  · -- shape of the speech calls
    rcases hrest with h0 | ⟨r, tail, after, hr, ht, ha, _⟩
    · refine ⟨fid, tid, "", k + 1, by omega, by omega, ?_⟩
      refine ⟨[.DownloadFile ""], ?_⟩
      rw [h0]
      simp only [speechOnly_append, speechOnly_voiceStart, speechOnly_pendingPolls,
        List.replicate_succ']
      simp [speechOnly, isSpeech]
    · refine ⟨fid, tid, r, k + 1, by omega, by omega, ?_⟩
      refine ⟨[], ?_⟩
      rw [hr]
      simp only [speechOnly_append, speechOnly_voiceStart, speechOnly_pendingPolls,
        List.replicate_succ', ht, ha]
      simp [speechOnly, isSpeech]
  · -- recognize gets the id returned by upload
    intro p x q h
    have hs := split_at_mark (fun c => ∃ y, c = Call.RecognizeFile y) (.RecognizeFile fid)
      (.RecognizeFile x) (pendingPolls tid k ++ [.GetStatus tid] ++ rest) q
      [.downloadFile msg.Payload (w.getFilename msg.Payload),
        .Send msg.User ("Download " ++ w.getFilename msg.Payload),
        .UploadFile (w.getFilename msg.Payload), .Send msg.User "Start recognize..."] p
      (by rw [← h]; simp [voiceStart]) ⟨x, rfl⟩ (by simp) (by
        intro c hc ⟨y, hy⟩
        subst hy
        simp only [List.mem_append, List.mem_singleton] at hc
        rcases hc with (hc | hc) | hc
        · rcases mem_pendingPolls tid k _ hc with h1 | h1 <;> cases h1
        · cases hc
        · obtain ⟨r, hr⟩ := hrestmem _ hc rfl
          cases hr)
    obtain ⟨hp, hx, _⟩ := hs
    refine ⟨[.downloadFile msg.Payload (w.getFilename msg.Payload),
        .Send msg.User ("Download " ++ w.getFilename msg.Payload)],
      w.getFilename msg.Payload, [.Send msg.User "Start recognize..."], ?_, rfl, ?_⟩
    · rw [hp]; rfl
    · injection hx with hx
      rw [hx]; exact hup
  · -- every status call gets the task id returned by recognize
    intro p t q h
    have hs := split_after_mark (fun c => ∃ y, c = Call.GetStatus y) (.GetStatus t)
      (pendingPolls tid k ++ [.GetStatus tid] ++ rest) q (voiceStart w msg fid) p
      (by rw [← h]; simp [List.append_assoc]) ⟨t, rfl⟩ (by simp [voiceStart])
    obtain ⟨m, hp, hT⟩ := hs
    have hmem : Call.GetStatus t ∈ pendingPolls tid k ++ [.GetStatus tid] ++ rest := by
      rw [hT]; simp
    have ht : t = tid := by
      simp only [List.mem_append, List.mem_singleton] at hmem
      rcases hmem with (hc | hc) | hc
      · rcases mem_pendingPolls tid k _ hc with h1 | h1
        · injection h1
        · cases h1
      · injection hc
      · obtain ⟨r, hr⟩ := hrestmem _ hc rfl
        cases hr
    refine ⟨[.downloadFile msg.Payload (w.getFilename msg.Payload),
        .Send msg.User ("Download " ++ w.getFilename msg.Payload),
        .UploadFile (w.getFilename msg.Payload), .Send msg.User "Start recognize..."],
      fid, m, ?_, ?_⟩
    · rw [hp]; rfl
    · rw [ht]; exact hrec
  · -- download gets the value returned by the last status call
    intro p r1 q h
    rcases hrest with h0 | ⟨r, tail, after, hr, ht, ha, hget⟩
    · have hm := mem_of_split _ p q _ h
      rw [h0] at hm
      simp only [List.mem_append, List.mem_singleton, List.not_mem_nil, or_false] at hm
      rcases hm with (hc | hc) | hc
      · simp [voiceStart] at hc
      · rcases mem_pendingPolls tid k _ hc with h1 | h1 <;> cases h1
      · cases hc
    · have hs := split_at_mark (fun c => ∃ y, c = Call.DownloadFile y) (.DownloadFile r)
        (.DownloadFile r1) after q
        (voiceStart w msg fid ++ pendingPolls tid k ++ [.GetStatus tid] ++ tail ++
          [.Send msg.User "Get text..."]) p
        (by rw [← h, hr]; simp [List.append_assoc]) ⟨r1, rfl⟩ (by
          intro c hc ⟨y, hy⟩
          subst hy
          simp only [List.mem_append, List.mem_singleton] at hc
          rcases hc with (((hc | hc) | hc) | hc) | hc
          · simp [voiceStart] at hc
          · rcases mem_pendingPolls tid k _ hc with h1 | h1 <;> cases h1
          · cases hc
          · have := not_isSpeech_of_speechOnly_nil tail ht _ hc
            cases this
          · cases hc) (by
          intro c hc ⟨y, hy⟩
          subst hy
          have := not_isSpeech_of_speechOnly_nil after ha _ hc
          cases this)
      obtain ⟨hp, hx, _⟩ := hs
      refine ⟨voiceStart w msg fid ++ pendingPolls tid k, tid,
        tail ++ [.Send msg.User "Get text..."], ?_, ?_, ?_⟩
      · rw [hp]; simp [List.append_assoc]
      · rw [speechOnly_append, ht]; rfl
      · injection hx with hx
        rw [hx]; exact hget

/-- For every world, the calls made by `onVoice` satisfy the lifecycle. -/
theorem onVoice_lifecycle (w : World) (msg : Message) (tr0 : List Call) :
    ∃ calls, (onVoice w msg tr0).trace = tr0 ++ calls ∧ Lifecycle w msg tr0 calls := by
  cases hdl : w.downloadFile tr0 msg.Payload (w.getFilename msg.Payload) with
  | some e =>
    exact ⟨_, by simp only [onVoice, hdl], lifecycle_no_upload w msg tr0⟩
  | none =>
    cases hup : w.UploadFile (tr0 ++ [.downloadFile msg.Payload (w.getFilename msg.Payload),
        .Send msg.User ("Download " ++ w.getFilename msg.Payload)])
        (w.getFilename msg.Payload) with
    | panic m =>
      exact ⟨_, by simp only [onVoice, hdl, hup, List.append_assoc]; rfl,
        lifecycle_upload w msg tr0⟩
    | ret res =>
      obtain ⟨fid, err⟩ := res
      cases err with
      | some e =>
        exact ⟨_, by simp only [onVoice, hdl, hup, List.append_assoc]; rfl,
          lifecycle_upload w msg tr0⟩
      | none =>
        have hrecEq : tr0 ++ [Call.downloadFile msg.Payload (w.getFilename msg.Payload),
            Call.Send msg.User ("Download " ++ w.getFilename msg.Payload)] ++
            [Call.UploadFile (w.getFilename msg.Payload),
              Call.Send msg.User "Start recognize..."] =
            tr0 ++ [.downloadFile msg.Payload (w.getFilename msg.Payload),
              .Send msg.User ("Download " ++ w.getFilename msg.Payload),
              .UploadFile (w.getFilename msg.Payload), .Send msg.User "Start recognize..."] := by
          simp
        cases hrec : w.RecognizeFile (tr0 ++
            [.downloadFile msg.Payload (w.getFilename msg.Payload),
              .Send msg.User ("Download " ++ w.getFilename msg.Payload),
              .UploadFile (w.getFilename msg.Payload), .Send msg.User "Start recognize..."])
            fid with
        | panic m =>
          refine ⟨voiceStart w msg fid, ?_, lifecycle_recognize w msg tr0 fid hup⟩
          simp only [onVoice, hdl, hup, hrecEq, hrec]
          simp [voiceStart]
        | ret res2 =>
          obtain ⟨tid, err2⟩ := res2
          cases err2 with
          | some e =>
            refine ⟨voiceStart w msg fid, ?_, lifecycle_recognize w msg tr0 fid hup⟩
            simp only [onVoice, hdl, hup, hrecEq, hrec]
            simp [voiceStart]
          | none =>
            have hstart : tr0 ++
                [Call.downloadFile msg.Payload (w.getFilename msg.Payload),
                  Call.Send msg.User ("Download " ++ w.getFilename msg.Payload),
                  Call.UploadFile (w.getFilename msg.Payload),
                  Call.Send msg.User "Start recognize..."] ++ [Call.RecognizeFile fid] =
                tr0 ++ voiceStart w msg fid := by
              simp [voiceStart]
            have hrun : (onVoice w msg tr0).trace =
                match pollLoop w tid 10 fid (tr0 ++ voiceStart w msg fid) with
                | .panic _ tr3 => tr3
                | .abort tr3 => tr3
                | .done r tr3 => tr3 ++ voiceEnd w msg r tr3 := by
              simp only [onVoice, hdl, hup, hrecEq, hrec, hstart, voiceEnd, voiceReply]
              split
              · rfl
              · rfl
              · split <;> simp_all
            rcases pollLoop_shape w tid 10 fid (tr0 ++ voiceStart w msg fid) with
              ⟨h0, _⟩ | ⟨k, hk, hcase⟩
            · cases h0
            · rcases hcase with ⟨r, tail, htail, hloop, hget⟩ | hloop | ⟨m, hloop⟩
              · refine ⟨voiceStart w msg fid ++ pendingPolls tid k ++ [.GetStatus tid] ++
                  (tail ++ [.Send msg.User "Get text...", .DownloadFile r] ++
                    voiceReply w msg r (tr0 ++ voiceStart w msg fid ++ pendingPolls tid k ++
                      [.GetStatus tid] ++ tail)), ?_, ?_⟩
                · rw [hrun, hloop]
                  simp [voiceEnd, List.append_assoc]
                · refine lifecycle_polled w msg tr0 fid tid k _ hk hup hrec
                    (Or.inr ⟨r, tail, _, rfl, ?_, ?_, ?_⟩)
                  · rcases htail with h | h <;> rw [h] <;> rfl
                  · unfold voiceReply
                    split <;> rfl
                  · rw [← List.append_assoc]; exact hget
              · refine ⟨voiceStart w msg fid ++ pendingPolls tid k ++ [.GetStatus tid] ++ [],
                  ?_, lifecycle_polled w msg tr0 fid tid k [] hk hup hrec (Or.inl rfl)⟩
                rw [hrun, hloop]
                simp [List.append_assoc]
              · refine ⟨voiceStart w msg fid ++ pendingPolls tid k ++ [.GetStatus tid] ++ [],
                  ?_, lifecycle_polled w msg tr0 fid tid k [] hk hup hrec (Or.inl rfl)⟩
                rw [hrun, hloop]
                simp [List.append_assoc]

/-- C11: for every Voice event and every behaviour of the collaborators, the
speech-client calls made by `onVoice` are an initial part of: one `UploadFile`,
one `RecognizeFile`, `N` `GetStatus` calls with `1 <= N <= 10`, one
`DownloadFile`.  Each stage is invoked only after the preceding stage returned
without error and receives its output: a `RecognizeFile` call gets the id that
the `UploadFile` call before it returned, every `GetStatus` call gets the task
id that the `RecognizeFile` call before it returned, and the `DownloadFile`
call gets the value that the last `GetStatus` call returned. -/
theorem C11_voice_lifecycle (w : World) (msg : Message) (tr0 : List Call) :
    ∃ calls, (onVoice w msg tr0).trace = tr0 ++ calls ∧
      (∃ fid tid r N, 1 ≤ N ∧ N ≤ 10 ∧
        speechOnly calls <+: .UploadFile (w.getFilename msg.Payload) :: .RecognizeFile fid ::
          (List.replicate N (.GetStatus tid) ++ [.DownloadFile r])) ∧
      (∀ p x q, calls = p ++ .RecognizeFile x :: q →
        ∃ p1 f p2, p = p1 ++ .UploadFile f :: p2 ∧ speechOnly p2 = [] ∧
          w.UploadFile (tr0 ++ p1) f = .ret (x, none)) ∧
      (∀ p t q, calls = p ++ .GetStatus t :: q →
        ∃ p1 x p2, p = p1 ++ .RecognizeFile x :: p2 ∧
          w.RecognizeFile (tr0 ++ p1) x = .ret (t, none)) ∧
      (∀ p r q, calls = p ++ .DownloadFile r :: q →
        ∃ p1 t p2, p = p1 ++ .GetStatus t :: p2 ∧ speechOnly p2 = [] ∧
          w.GetStatus (tr0 ++ p1) t = .ret (r, none)) :=
  onVoice_lifecycle w msg tr0

/-- Witness of C11: in the run with one pending poll and then `r1`, the calls
before `DownloadFile "r1"` end with a `GetStatus` call that returned `r1`. -/
theorem C11_voice_lifecycle_witness :
    ∃ p1 t p2,
      [Call.downloadFile "https://host/dir/voice.oga" "voice.oga",
        .Send 7 "Download voice.oga", .UploadFile "voice.oga",
        .Send 7 "Start recognize...", .RecognizeFile "f1",
        .GetStatus "t1", .Sleep 3, .GetStatus "t1", .Send 7 "Get text..."] =
        p1 ++ .GetStatus t :: p2 ∧ speechOnly p2 = [] ∧
      (mockWorld (pendingThen 1 (.ret ("r1", none))) (.ret ("transcribed text", none))
        (.ret ("", none))).GetStatus ([] ++ p1) t = .ret ("r1", none) := by
  obtain ⟨calls, htr, _, _, _, h4⟩ := C11_voice_lifecycle
    (mockWorld (pendingThen 1 (.ret ("r1", none))) (.ret ("transcribed text", none))
      (.ret ("", none))) voiceMsg []
  have hrun : (onVoice (mockWorld (pendingThen 1 (.ret ("r1", none)))
      (.ret ("transcribed text", none)) (.ret ("", none))) voiceMsg []).trace =
      [.downloadFile "https://host/dir/voice.oga" "voice.oga",
        .Send 7 "Download voice.oga", .UploadFile "voice.oga",
        .Send 7 "Start recognize...", .RecognizeFile "f1",
        .GetStatus "t1", .Sleep 3, .GetStatus "t1", .Send 7 "Get text...",
        .DownloadFile "r1", .Send 7 "Text: transcribed text\n"] := by decide
  rw [hrun, List.nil_append] at htr
  exact h4 _ "r1" [.Send 7 "Text: transcribed text\n"] (by rw [← htr]; rfl)

/-! ## Stored expiry after a refresh -/

theorem wrap64_of_range (x : Int) (h1 : -9223372036854775808 ≤ x)
    (h2 : x < 9223372036854775808) : wrap64 x = x := by
  unfold wrap64
  omega

/-- C12, as stated, fails at the ends of the `int64` range.  A reported
lifetime of 10000000000000 ms makes `(L - 60000)` milliseconds overflow the
nanosecond count of `time.Duration`: the SaluteSpeech client stores an expiry
about 267 years before the refresh instead of `now + (L - 60000)` ms.  A
reported timestamp of 9223372036854775807 s makes `time.Unix` wrap around: the
GigaChat client stores an instant other than `T`. -/
theorem C12_overflow_counterexample :
    (salutespeech.GetToken (salutespeech.NewClient "key") 63900000000000000000 "uid"
        (fun _ => .resp 200 [] (.ok ⟨"new", 10000000000000⟩)) 63900000001000000000).out =
      (none, ⟨"key", "new", 63900000001000000000 - 8446744133709551616⟩) ∧
    (63900000001000000000 - 8446744133709551616 : Int) ≠
      63900000001000000000 + (10000000000000 - 60000) * Millisecond ∧
    (gigachat.GetToken (gigachat.NewClient "key") 63900000000000000000 "uid"
        (fun _ => .resp 200 [] (.ok ⟨"new", 9223372036854775807⟩))).out =
      (none, ⟨"key", "new", -9223371974719179009 * 1000000000⟩) ∧
    (-9223371974719179009 * 1000000000 : Int) ≠
      (9223372036854775807 + unixToInternal) * 1000000000 := by
  refine ⟨by decide, by decide, by decide, by decide⟩

/-- C12, amended: after a successful token refresh whose answer is stored at
the clock reading `now2`: the SaluteSpeech client, given a reported relative
lifetime of `L` milliseconds with `(L - 60000) * 1000000` nanoseconds inside
the `int64` range, stores the expiry `now2 + (L - 60000)` ms, which is 60
seconds before `now2 + L` ms, so for `L <= 60000` every later validity check
fails; the GigaChat client, given a reported unix timestamp of `T` seconds
with `T + 62135596800` inside the `int64` range, stores the instant `T`
(`T + unixToInternal` seconds after the zero time).  In both cases the stored
token is the `access_token` of the answer and no error is returned. -/
theorem C12_stored_expiry (sc : salutespeech.Client) (gc : gigachat.Client)
    (now now2 : Time) (rqUID : String)
    (shttp : Request → HttpResult salutespeech.Token)
    (ghttp : Request → HttpResult gigachat.Token)
    (sraw graw : List Nat) (stok : salutespeech.Token) (gtok : gigachat.Token)
    (hs : sc.expire = 0 ∨ sc.expire ≤ now) (hg : gc.expire = 0 ∨ gc.expire ≤ now)
    (hsresp : shttp (salutespeech.tokenRequest sc rqUID) = .resp 200 sraw (.ok stok))
    (hgresp : ghttp (gigachat.tokenRequest gc rqUID) = .resp 200 graw (.ok gtok))
    (hL1 : -9223372036854775808 ≤ (stok.ExpiresAt - 60000) * 1000000)
    (hL2 : (stok.ExpiresAt - 60000) * 1000000 < 9223372036854775808)
    (hT1 : -9223372036854775808 ≤ gtok.ExpiresAt + 62135596800)
    (hT2 : gtok.ExpiresAt + 62135596800 < 9223372036854775808) :
    (salutespeech.GetToken sc now rqUID shttp now2).out =
      (none, { sc with token := stok.AccessToken
                       expire := now2 + (stok.ExpiresAt - 60000) * Millisecond }) ∧
    now2 + (stok.ExpiresAt - 60000) * Millisecond =
      now2 + stok.ExpiresAt * Millisecond - 60 * 1000000000 ∧
    (stok.ExpiresAt ≤ 60000 → ∀ later : Time, now2 ≤ later →
      (!IsZero (now2 + (stok.ExpiresAt - 60000) * Millisecond) &&
        After (now2 + (stok.ExpiresAt - 60000) * Millisecond) later) = false) ∧
    (gigachat.GetToken gc now rqUID ghttp).out =
      (none, { gc with token := gtok.AccessToken
                       expire := (gtok.ExpiresAt + unixToInternal) * 1000000000 }) := by
  have hsv : (!IsZero sc.expire && After sc.expire now) = false := by
    cases hb : (!IsZero sc.expire && After sc.expire now)
    · rfl
    · exact absurd hs ((validity_check sc.expire now).1 hb)
  have hgv : (!IsZero gc.expire && After gc.expire now) = false := by
    cases hb : (!IsZero gc.expire && After gc.expire now)
    · rfl
    · exact absurd hg ((validity_check gc.expire now).1 hb)
  have hw1 : wrap64 (stok.ExpiresAt - 60000) = stok.ExpiresAt - 60000 :=
    wrap64_of_range _ (by omega) (by omega)
  have hw2 : wrap64 ((stok.ExpiresAt - 60000) * Millisecond) =
      (stok.ExpiresAt - 60000) * Millisecond :=
    wrap64_of_range _ (by unfold Millisecond; omega) (by unfold Millisecond; omega)
  have hw3 : wrap64 (gtok.ExpiresAt + unixToInternal) = gtok.ExpiresAt + unixToInternal :=
    wrap64_of_range _ (by unfold unixToInternal; omega) (by unfold unixToInternal; omega)
  refine ⟨?_, ?_, ?_, ?_⟩
  · simp only [salutespeech.GetToken, hsv, hsresp, StatusOK, hw1, hw2]
    simp
  · unfold Millisecond
    ring
  · intro hle later hlater
    have hexp : (now2 : Int) + (stok.ExpiresAt - 60000) * Millisecond ≤ later := by
      have h2 : (stok.ExpiresAt - 60000) * Millisecond ≤ 0 := by
        unfold Millisecond; omega
      linarith
    cases hb : (!IsZero (now2 + (stok.ExpiresAt - 60000) * Millisecond) &&
        After (now2 + (stok.ExpiresAt - 60000) * Millisecond) later)
    · rfl
    · exact absurd (Or.inr hexp) ((validity_check _ later).1 hb)
  · simp only [gigachat.GetToken, hgv, hgresp, StatusOK, Unix, hw3]
    simp

/-- Witness of C12 (amended): first refresh of both clients, a lifetime of 30
minutes and the timestamp 1700000000. -/
theorem C12_stored_expiry_witness :
    (salutespeech.GetToken (salutespeech.NewClient "key") 63900000000000000000 "uid"
        (fun _ => .resp 200 [] (.ok ⟨"new", 1800000⟩)) 63900000001000000000).out =
      (none, ⟨"key", "new", 63900000001000000000 + (1800000 - 60000) * Millisecond⟩) ∧
    (gigachat.GetToken (gigachat.NewClient "key") 63900000000000000000 "uid"
        (fun _ => .resp 200 [] (.ok ⟨"new", 1700000000⟩))).out =
      (none, ⟨"key", "new", (1700000000 + unixToInternal) * 1000000000⟩) :=
  have h := C12_stored_expiry (salutespeech.NewClient "key") (gigachat.NewClient "key")
    63900000000000000000 63900000001000000000 "uid"
    (fun _ => .resp 200 [] (.ok ⟨"new", 1800000⟩))
    (fun _ => .resp 200 [] (.ok ⟨"new", 1700000000⟩)) [] [] ⟨"new", 1800000⟩
    ⟨"new", 1700000000⟩ (Or.inl rfl) (Or.inl rfl) rfl rfl (by decide) (by decide)
    (by decide) (by decide)
  ⟨h.1, h.2.2.2⟩

end Gosberbot
